import Mathlib

/-!
# ng-quill: a shallow embedding of `src/ng-quill.js`

The file models three parts of the module:

* the editor/model synchronisation of the `ngQuillEditor` component
  (`validate`, `setter`, `$onChanges`, the initial-content part of
  `_initEditor`, the `text-change` handler with its `$applyAsync` callback, the
  `selection-change` handler and `$onDestroy`);
* the style fallback installed over `setAttribute`, the `style` setter,
  `setProperty` and `cssText`;
* the legacy mutation events: the observer callback that re-creates them and the
  registry of observers kept by `addEventListener` and `removeEventListener`.

Calls made on collaborators (the Quill editor, `ngModelCtrl`, the bound
callbacks, the DOM) are recorded as a list of `Effect`s in call order.  What a
collaborator answers (the editor's text, `JSON.parse`, `clipboard.convert`,
whether an original DOM write throws) is supplied by a `Host` record.
-/

namespace NgQuill

/-! ## JavaScript values and strings -/

/-- JavaScript values that cross the component boundary: model values, deltas, ranges. -/
inductive JSVal where
  | undefined
  | null
  | bool (b : Bool)
  | num (n : Int)
  | str (s : String)
  | arr (items : List JSVal)
  | obj (fields : List (String × JSVal))
  deriving Repr

/-- JavaScript truthiness (`if (v)`). -/
def JSVal.truthy : JSVal → Bool
  | .undefined => false
  | .null => false
  | .bool b => b
  | .num n => n != 0
  | .str s => s != ""
  | .arr _ => true
  | .obj _ => true

/-- The test `v !== undefined && v !== null`. -/
def JSVal.isPresent : JSVal → Bool
  | .undefined => false
  | .null => false
  | _ => true

/-- The test `v === undefined`. -/
def JSVal.isUndefined : JSVal → Bool
  | .undefined => true
  | _ => false

/-- Strict equality `text === v` of a string with an arbitrary value. -/
def JSVal.strictEqStr (text : String) : JSVal → Bool
  | .str s => s == text
  | _ => false

/-- Truthiness of an optional numeric binding such as `this.maxLength`:
`undefined` and `0` are falsy, every other integer is truthy. -/
def truthyNum : Option Int → Bool
  | none => false
  | some n => n != 0

/-- Truthiness of an optional string binding such as `this.trackChanges`:
`undefined` and the empty string are falsy. -/
def truthyStr : Option String → Bool
  | none => false
  | some s => s != ""

/-- The characters removed by `String.prototype.trim`: ECMAScript white space
and line terminators. -/
def jsIsWhiteSpace (c : Char) : Bool :=
  c.toNat == 0x09 || c.toNat == 0x0A || c.toNat == 0x0B || c.toNat == 0x0C ||
  c.toNat == 0x0D || c.toNat == 0x20 || c.toNat == 0xA0 || c.toNat == 0x1680 ||
  (0x2000 ≤ c.toNat && c.toNat ≤ 0x200A) ||
  c.toNat == 0x2028 || c.toNat == 0x2029 || c.toNat == 0x202F ||
  c.toNat == 0x205F || c.toNat == 0x3000 || c.toNat == 0xFEFF

/-- The characters of `s.trim()`. -/
def trimChars (cs : List Char) : List Char :=
  ((cs.dropWhile jsIsWhiteSpace).reverse.dropWhile jsIsWhiteSpace).reverse

/-- The `.length` of a JavaScript string: the number of UTF-16 code units. -/
def utf16Length (cs : List Char) : Nat :=
  cs.foldl (fun n c => n + (if c.toNat < 0x10000 then 1 else 2)) 0

/-- The value of `text.trim().length`. -/
def trimmedLength (text : String) : Nat :=
  utf16Length (trimChars text.toList)

/-- The test `value.trim()` used as a condition: the trimmed string is not empty. -/
def nonBlank (value : String) : Bool :=
  !(trimChars value.toList).isEmpty

/-- The test `content.indexOf('<') === -1`. -/
def noTagMarker (content : String) : Bool :=
  !content.toList.contains '<'

/-- The test `typeof content === 'string' && content.indexOf('<') === -1`. -/
def JSVal.plainString : JSVal → Bool
  | .str s => noTagMarker s
  | _ => false

/-! ## The component: bindings, closure variables, effects -/

/-- The `source` argument of an editor notification. -/
inductive Source where
  | user
  | api
  | silent
  deriving DecidableEq, Repr

/-- Calls made on the collaborators, in the order the code makes them. -/
inductive Effect where
  | setText (text : JSVal) (source : Option Source)
  | setContents (delta : JSVal) (source : Option Source)
  | historyClear
  | enable (enabled : Bool)
  | setPlaceholder (value : JSVal)
  | classListAdd (cls : JSVal)
  | classListRemove (cls : JSVal)
  | setValidity (key : String) (valid : Bool)
  | setViewValue (value : JSVal)
  | setTouched
  | onContentChanged (html : JSVal) (text : String) (content delta oldDelta : JSVal)
      (source : Source)
  | onEditorCreated
  | onBlur (source : Source)
  | onFocus (source : Source)
  | onSelectionChanged (oldRange range : JSVal) (source : Source)
  deriving Repr

/-- The component bindings read through `this`. -/
structure Ctrl where
  format : Option String := none
  maxLength : Option Int := none
  minLength : Option Int := none
  trackChanges : Option String := none
  sanitize : Bool := false
  ngModel : JSVal := .undefined
  classes : JSVal := .undefined
  onContentChanged : Bool := false
  onEditorCreated : Bool := false
  onBlur : Bool := false
  onFocus : Bool := false
  onSelectionChanged : Bool := false

/-- The value of `ngQuillConfig.trackChanges`: `'user'` unless the provider's
`set` was given `'all'` (lines 320 and 351-353). -/
structure ProviderConfig where
  trackChanges : String := "user"

/-- The variables of the controller's closure (lines 399-407) and `$viewValue`
of the required `ngModelCtrl`. -/
structure Closure where
  content : JSVal := .undefined
  editorElem : Bool := false
  format : String := "html"
  editorChanged : Bool := false
  editor : Bool := false
  textChangeEvent : Bool := false
  selectionChangeEvent : Bool := false
  viewValue : JSVal := .undefined

/-- What the `text-change` handler reads from the editor when it starts
(lines 666-668). -/
structure Snapshot where
  html : String
  text : String
  contents : JSVal

/-- A `text-change` notification as the handler receives it: what the editor holds at
that moment and the two delta arguments; its source is kept apart. -/
structure Notification where
  snap : Snapshot
  delta : JSVal
  oldDelta : JSVal

/-- Answers of the collaborators. `getText calls` is `editor.getText()` after the
editor calls `calls` of the running handler; `jsonParse` and `jsonStringify`
answer `none` when the JavaScript function throws; `quillError` is the message of
the error thrown by `new Quill(...)`, if it throws. `setContentsAnswer delta` is the
`text-change` notification the editor sends to its listeners, before it returns,
when the handler calls `editor.setContents(delta)` without a source: the editor then
uses the source `'api'`, and it sends nothing (`none`) when the call changes
nothing. -/
structure Host where
  getText : List Effect → String
  convert : JSVal → JSVal
  sanitizeHtml : JSVal → JSVal
  jsonParse : JSVal → Option JSVal
  jsonStringify : JSVal → Option JSVal
  setContentsAnswer : JSVal → Option Notification
  quillError : Option String := none

/-- The value of `$onInit`'s format selection (lines 519-521): the binding replaces
the default `'html'` only when it is one of the four known formats. -/
def onInit (c : Ctrl) (cl : Closure) : Closure :=
  match c.format with
  | some f =>
    if f != "" && ["object", "html", "text", "json"].contains f then
      { cl with format := f }
    else cl
  | none => cl

/-- The function `this.setter` (lines 409-421). -/
def setter (c : Ctrl) (h : Host) (cl : Closure) (value : JSVal) : JSVal :=
  if cl.format == "html" then
    h.convert (if c.sanitize then h.sanitizeHtml value else value)
  else if c.format == some "json" then
    match h.jsonParse value with
    | some parsed => parsed
    | none => .arr [.obj [("insert", value)]]
  else value

/-- The first statement of `validate` (lines 426-432): the `maxlength` flag. -/
def validateMax (c : Ctrl) (textLength : Int) : List Effect :=
  if truthyNum c.maxLength then
    match c.maxLength with
    | some m =>
      if textLength > m then [.setValidity "maxlength" false]
      else [.setValidity "maxlength" true]
    | none => []
  else []

/-- The second statement of `validate` (lines 434-442): the `minlength` flag. -/
def validateMin (c : Ctrl) (textLength : Int) : List Effect :=
  match c.minLength with
  | some m =>
    if m > 0 then
      if textLength = 0 then [.setValidity "minlength" true]
      else if textLength < m then [.setValidity "minlength" false]
      else [.setValidity "minlength" true]
    else []
  | none => []

/-- The function `this.validate` (lines 423-443): the `$setValidity` calls it makes. -/
def validate (c : Ctrl) (text : String) : List Effect :=
  let textLength : Int := (trimmedLength text : Nat)
  validateMax c textLength ++ validateMin c textLength

/-- The argument of `$onChanges`: for each binding that changed, its `currentValue`
(and for `classes` the `previousValue` first). -/
structure Changes where
  ngModel : Option JSVal := none
  readOnly : Option JSVal := none
  placeholder : Option JSVal := none
  classes : Option (JSVal × JSVal) := none

/-- Removal of the previous classes (lines 483-495). -/
def removeClasses (previousClasses : JSVal) : List Effect :=
  if previousClasses.truthy then
    match previousClasses with
    | .arr items => (items.filter JSVal.truthy).map Effect.classListRemove
    | .obj fields => fields.map (fun kv => Effect.classListRemove (.str kv.1))
    | _ => []
  else []

/-- Addition of the current classes (lines 498-510, and 584-594 for `this.classes`). -/
def addClasses (currentClasses : JSVal) : List Effect :=
  if currentClasses.truthy then
    match currentClasses with
    | .arr items => (items.filter JSVal.truthy).map Effect.classListAdd
    | .obj fields =>
      (fields.filter (fun kv => kv.2.truthy)).map (fun kv => Effect.classListAdd (.str kv.1))
    | _ => []
  else []

/-- The editor call that applies an external value (lines 451-463). -/
def applyExternal (c : Ctrl) (h : Host) (cl : Closure) (content : JSVal) : Effect :=
  if content.isPresent then
    if c.format == some "text" then .setText content none
    else if c.format == some "html" && content.plainString then .setText content none
    else .setContents (setter c h cl content) none
  else .setText (.str "") none

/-- The function `this.$onChanges` (lines 445-512). -/
def onChanges (c : Ctrl) (h : Host) (cl : Closure) (changes : Changes) :
    Closure × List Effect :=
  let modelPart : Closure × List Effect :=
    match changes.ngModel with
    | some currentValue =>
      let cl0 := { cl with content := currentValue }
      if cl0.editor then
        let effs : List Effect :=
          if !cl0.editorChanged then
            let call := applyExternal c h cl0 currentValue
            call :: validate c (h.getText [call])
          else []
        ({ cl0 with editorChanged := false }, effs)
      else (cl0, [])
    | none => (cl, [])
  let cl1 := modelPart.1
  let readOnlyPart : List Effect :=
    match changes.readOnly with
    | some v => if cl1.editor then [.enable (!v.truthy)] else []
    | none => []
  let placeholderPart : List Effect :=
    match changes.placeholder with
    | some v => if cl1.editor then [.setPlaceholder v] else []
    | none => []
  let classesPart : List Effect :=
    match changes.classes with
    | some (previousClasses, currentClasses) =>
      if cl1.editor && cl1.editorElem then
        removeClasses previousClasses ++ addClasses currentClasses
      else []
    | none => []
  (cl1, modelPart.2 ++ readOnlyPart ++ placeholderPart ++ classesPart)

/-- The content hand-over of `$postLink` (lines 539-541), run before `_initEditor`. -/
def postLink (c : Ctrl) (cl : Closure) : Closure :=
  if cl.content.isUndefined && !c.ngModel.isUndefined then
    { cl with content := c.ngModel }
  else cl

/-- The block "set initial content" of `_initEditor` (lines 722-744). -/
def initialContent (c : Ctrl) (h : Host) (cl : Closure) : List Effect :=
  if cl.content.truthy then
    (if cl.format == "text" then [Effect.setText cl.content (some .silent)]
     else if cl.format == "object" then [Effect.setContents cl.content (some .silent)]
     else if cl.format == "json" then
       match h.jsonParse cl.content with
       | some delta => [Effect.setContents delta (some .silent)]
       | none => [Effect.setText cl.content (some .silent)]
     else if cl.content.plainString then [Effect.setText cl.content (some .silent)]
     else
       [Effect.setContents
          (h.convert (if c.sanitize then h.sanitizeHtml cl.content else cl.content))
          (some .silent)])
    ++ [Effect.historyClear]
  else []

/-- The function `this._initEditor` from the class list on (lines 584-594 and
622-750); the toolbar and custom-option registration before the constructor call
touch neither the closure nor the model. A throwing constructor gives the labelled
error of line 628. -/
def _initEditor (c : Ctrl) (h : Host) (cl : Closure) :
    Except String (Closure × List Effect) :=
  let classEffs := addClasses c.classes
  match h.quillError with
  | some message => .error ("Failed to create Quill editor: " ++ message)
  | none =>
    let cl1 := { cl with editorElem := true, editor := true,
                         selectionChangeEvent := true, textChangeEvent := true }
    let init := initialContent c h cl1
    .ok (cl1, classEffs ++ init ++ validate c (h.getText init) ++
      (if c.onEditorCreated then [Effect.onEditorCreated] else []))

/-- The values captured by the `$applyAsync` callback of the `text-change` handler. -/
structure ChangeEvent where
  html : JSVal
  text : String
  content : JSVal
  delta : JSVal
  oldDelta : JSVal
  source : Source

/-- The test `text.trim().length > this.maxLength`. -/
def exceedsMax (c : Ctrl) (text : String) : Bool :=
  match c.maxLength with
  | some m => decide (((trimmedLength text : Nat) : Int) > m)
  | none => false

/-- The synchronous part of the `text-change` handler (lines 665-683): the calls made
until it returns, and the callback handed to `$scope.$applyAsync`, if any. The call
`editor.setContents(oldDelta)` of line 677 passes no source, so the editor answers it
with a `text-change` notification of source `'api'` before it returns, and that
notification runs this same handler; its calls follow the `setContents` call, and its
callback is the one that stays scheduled. The first argument bounds the depth of such
nested runs; the result is `none` when the bound is used up. -/
def textChangeHandler : Nat → Ctrl → Host → Snapshot → JSVal → JSVal → Source →
    Option (List Effect × Option ChangeEvent)
  | 0, _, _, _, _, _, _ => none
  | depth + 1, c, h, snap, delta, oldDelta, source =>
    let html : JSVal := if trimmedLength snap.text = 0 then .null else .str snap.html
    if truthyNum c.maxLength && exceedsMax c snap.text && source == .user then
      match h.setContentsAnswer oldDelta with
      | none => some ([.setContents oldDelta none], none)
      | some answer =>
        match textChangeHandler depth c h answer.snap answer.delta answer.oldDelta .api with
        | none => none
        | some nested => some (.setContents oldDelta none :: nested.1, nested.2)
    else
      some (validate c snap.text,
        some { html := html, text := snap.text, content := snap.contents,
               delta := delta, oldDelta := oldDelta, source := source })

/-- The call `this.ngModelCtrl.$setViewValue(value)`, which also makes `value` the
control's `$viewValue`. -/
def setViewValue (cl : Closure) (value : JSVal) : Closure × List Effect :=
  ({ cl with viewValue := value }, [.setViewValue value])

/-- The value of `this.trackChanges || ngQuillConfig.trackChanges` (line 684). -/
def effectiveTrackChanges (c : Ctrl) (cfg : ProviderConfig) : String :=
  match c.trackChanges with
  | some s => if s != "" then s else cfg.trackChanges
  | none => cfg.trackChanges

/-- The test `source === 'user' || trackChanges && trackChanges === 'all'` (line 685). -/
def pushesOutward (c : Ctrl) (cfg : ProviderConfig) (source : Source) : Bool :=
  source == .user ||
    (effectiveTrackChanges c cfg != "" && effectiveTrackChanges c cfg == "all")

/-- The outward push (lines 686-705), entered with `editorChanged = true`. -/
def pushBranch (c : Ctrl) (h : Host) (cl : Closure) (ev : ChangeEvent) :
    Closure × List Effect :=
  let cl0 := { cl with editorChanged := true }
  if cl0.format == "text" then
    if JSVal.strictEqStr ev.text cl0.viewValue then
      ({ cl0 with editorChanged := false }, [])
    else setViewValue cl0 (.str ev.text)
  else if cl0.format == "object" then setViewValue cl0 ev.content
  else if c.format == some "json" then
    match h.jsonStringify ev.content with
    | some json => setViewValue cl0 json
    | none => setViewValue cl0 (.str ev.text)
  else setViewValue cl0 ev.html

/-- The `$applyAsync` callback of the `text-change` handler (lines 683-719). -/
def applyAsyncCallback (c : Ctrl) (cfg : ProviderConfig) (h : Host) (cl : Closure)
    (ev : ChangeEvent) : Closure × List Effect :=
  let pushed : Closure × List Effect :=
    if pushesOutward c cfg ev.source then pushBranch c h cl ev else (cl, [])
  (pushed.1, pushed.2 ++
    (if c.onContentChanged then
      [Effect.onContentChanged ev.html ev.text ev.content ev.delta ev.oldDelta ev.source]
     else []))

/-! ## The style fallback (lines 138-278) -/

/-- A value caught by `catch (e)`: `null` or `undefined`, or any other value with
what its properties `name` and `message` hold (`none` when the property is absent,
as on a thrown string or a plain object without it). -/
inductive Thrown where
  | nullish
  | value (name : Option String) (message : Option String)
  deriving DecidableEq, Repr

/-- The `TypeError` the engine raises when a property of `undefined` or `null` is
read or called; `what` names the failed access. -/
def typeError (what : String) : Thrown :=
  .value (some "TypeError") (some ("Cannot read properties of undefined: " ++ what))

/-- The test `message.includes(needle)`. -/
def includes (message needle : String) : Bool :=
  decide (needle.toList <:+: message.toList)

/-- The condition `e.name === 'SecurityError' || e.message.includes('Content Security
Policy')` of the four `catch` blocks: its value, or the `TypeError` its evaluation
raises when `e` is nullish or has no `message`. -/
def isPolicyViolation : Thrown → Except Thrown Bool
  | .nullish => .error (typeError "name")
  | .value name message =>
    if name == some "SecurityError" then .ok true
    else
      match message with
      | none => .error (typeError "includes")
      | some m => .ok (includes m "Content Security Policy")

/-- The managed `<style>` element: `legacy` tells whether it has the `styleSheet`
property of old Internet Explorer, whose `cssText` then receives the rules; otherwise
the rules are the text nodes appended to the element. -/
structure StyleSheet where
  legacy : Bool
  cssText : String := ""
  textNodes : List String := []
  deriving DecidableEq, Repr

/-- The original DOM operations that returned normally, as the wrappers called them. -/
inductive DomWrite where
  | setAttribute (element : Nat) (name : String) (value : JSVal)
  | styleSet (element : Nat) (value : JSVal)
  | setProperty (owner : Nat) (property value : String) (priority : Option String)
  | cssTextSet (owner : Nat) (value : String)
  deriving Repr

/-- The state the style fallback works on: the two closure variables `styleCounter`
and `styleSheet`, the number of `<style>` elements the fallback appended to
`document.head`, the class list of every element (elements are numbered), and the
original writes that went through. The counter is a JavaScript number; a natural
number stands for it, which is exact for the first `2 ^ 53` increments. -/
structure World where
  styleCounter : Nat := 0
  styleSheet : Option StyleSheet := none
  headStyles : Nat := 0
  classList : Nat → List String := fun _ => []
  written : List DomWrite := []

/-- A style declaration object as the receiver `this` of `setProperty` and of the
`cssText` setter: the element it styles, and what its properties `classList` and
`parentElement` hold. The CSS object model defines neither property on a
declaration, so both are `none` there. -/
structure StyleDecl where
  owner : Nat
  classListOf : Option Nat := none
  parentElement : Option Nat := none
  deriving DecidableEq, Repr

/-- Answers of the document: whether the created `<style>` element is of the legacy
kind, what each original write throws (`none` when it returns normally), and the
string conversion used when a value is concatenated to a string. -/
structure DomHost where
  legacySheet : Bool := false
  setAttributeThrows : Nat → String → JSVal → Option Thrown
  styleSetThrows : Nat → JSVal → Option Thrown
  setPropertyThrows : StyleDecl → String → String → Option String → Option Thrown
  cssTextThrows : StyleDecl → String → Option Thrown
  toStr : JSVal → String

/-- The class name built from the counter: `'ng-quill-csp-style-' + n`. -/
def className (n : Nat) : String :=
  "ng-quill-csp-style-" ++ toString n

/-- The rule text `'.' + className + ' { ' + styleValue + ' }'` (line 164). -/
def ruleText (cls styleValue : String) : String :=
  "." ++ cls ++ " \x7b " ++ styleValue ++ " \x7d"

/-- The function `ensureStyleSheet` (lines 148-156). Creating the element, tagging it
with `data-ng-quill-csp` and appending it to `document.head` are taken to succeed;
the append is counted in `headStyles`. -/
def ensureStyleSheet (host : DomHost) (w : World) : World × StyleSheet :=
  match w.styleSheet with
  | some sheet => (w, sheet)
  | none =>
    let sheet : StyleSheet := { legacy := host.legacySheet }
    ({ w with styleSheet := some sheet, headStyles := w.headStyles + 1 }, sheet)

/-- The function `convertInlineStyleToClass` (lines 159-174); as in the source the
element argument is not used. -/
def convertInlineStyleToClass (host : DomHost) (w : World) (_element : Option Nat)
    (styleValue : String) : World × String :=
  let w1 := { w with styleCounter := w.styleCounter + 1 }
  let cls := className w1.styleCounter
  let ensured := ensureStyleSheet host w1
  let rule := ruleText cls styleValue
  let sheet : StyleSheet :=
    if ensured.2.legacy then { ensured.2 with cssText := ensured.2.cssText ++ rule }
    else { ensured.2 with textNodes := ensured.2.textNodes ++ [rule] }
  ({ ensured.1 with styleSheet := some sheet }, cls)

/-- The call `element.classList.add(cls)`. -/
def classListAdd (w : World) (element : Nat) (cls : String) : World :=
  if cls ∈ w.classList element then w
  else { w with classList := Function.update w.classList element
                  (w.classList element ++ [cls]) }

/-- The call `originalSetAttribute.call(this, name, value)`. -/
def originalSetAttribute (host : DomHost) (w : World) (element : Nat) (name : String)
    (value : JSVal) : World × Option Thrown :=
  match host.setAttributeThrows element name value with
  | none => ({ w with written := w.written ++ [.setAttribute element name value] }, none)
  | some e => (w, some e)

/-- The wrapper installed as `Element.prototype.setAttribute` (lines 177-195): the
state afterwards and the value it throws, if any. The inner call
`this.setAttribute('data-original-style', value)` re-enters the wrapper with a name
other than `style` and so reaches the original directly. -/
def setAttribute (host : DomHost) (w : World) (element : Nat) (name : String)
    (value : JSVal) : World × Option Thrown :=
  match value with
  | .str text =>
    if name == "style" && nonBlank text then
      match host.setAttributeThrows element name value with
      | none =>
        ({ w with written := w.written ++ [.setAttribute element name value] }, none)
      | some e =>
        match isPolicyViolation e with
        | .error raised => (w, some raised)
        | .ok true =>
          let converted := convertInlineStyleToClass host w (some element) text
          let w2 := classListAdd converted.1 element converted.2
          originalSetAttribute host w2 element "data-original-style" value
        | .ok false => (w, some e)
    else originalSetAttribute host w element name value
  | _ => originalSetAttribute host w element name value

/-- The style text the `style` setter builds from the assigned value
(lines 207-216): the string itself, or `prop: value; ` for every own property. -/
def styleStringOf (host : DomHost) : JSVal → String
  | .str text => text
  | .obj fields =>
    fields.foldl (fun acc kv => acc ++ (kv.1 ++ ": " ++ host.toStr kv.2 ++ "; ")) ""
  | .arr items =>
    (items.enum).foldl
      (fun acc kv => acc ++ (toString kv.1 ++ ": " ++ host.toStr kv.2 ++ "; ")) ""
  | _ => ""

/-- The wrapper installed as the setter of `Element.prototype.style`
(lines 201-226). -/
def styleSetter (host : DomHost) (w : World) (element : Nat) (value : JSVal) :
    World × Option Thrown :=
  match host.styleSetThrows element value with
  | none => ({ w with written := w.written ++ [.styleSet element value] }, none)
  | some e =>
    match isPolicyViolation e with
    | .error raised => (w, some raised)
    | .ok true =>
      let styleString := styleStringOf host value
      if nonBlank styleString then
        let converted := convertInlineStyleToClass host w (some element) styleString
        (classListAdd converted.1 element converted.2, none)
      else (w, none)
    | .ok false => (w, some e)

/-- The wrapper installed as `Element.prototype.style.setProperty` (lines 234-247).
Its receiver is the style declaration, so `this.classList` is read from the
declaration; when that property is absent the call `.add` raises a `TypeError` after
the class has been allocated. -/
def setProperty (host : DomHost) (w : World) (this : StyleDecl) (property value : String)
    (priority : Option String) : World × Option Thrown :=
  match host.setPropertyThrows this property value priority with
  | none =>
    ({ w with written := w.written ++ [.setProperty this.owner property value priority] },
     none)
  | some e =>
    match isPolicyViolation e with
    | .error raised => (w, some raised)
    | .ok true =>
      let styleString :=
        property ++ ": " ++ value ++
          (if truthyStr priority then " !" ++ priority.getD "" else "") ++ ";"
      let converted := convertInlineStyleToClass host w this.classListOf styleString
      match this.classListOf with
      | some element => (classListAdd converted.1 element converted.2, none)
      | none => (converted.1, some (typeError "add"))
    | .ok false => (w, some e)

/-- The wrapper installed as the setter of `CSSStyleDeclaration.prototype.cssText`
(lines 256-272). The class is added to `this.parentElement` when the receiver has
such a property and to nothing otherwise. -/
def cssTextSetter (host : DomHost) (w : World) (this : StyleDecl) (value : String) :
    World × Option Thrown :=
  match host.cssTextThrows this value with
  | none => ({ w with written := w.written ++ [.cssTextSet this.owner value] }, none)
  | some e =>
    match isPolicyViolation e with
    | .error raised => (w, some raised)
    | .ok true =>
      if value != "" && nonBlank value then
        let converted := convertInlineStyleToClass host w this.parentElement value
        match this.parentElement with
        | some element => (classListAdd converted.1 element converted.2, none)
        | none => (converted.1, none)
      else (w, none)
    | .ok false => (w, some e)

/-- A run of style-attribute writes `element.setAttribute('style', text)`, one after
the other. -/
def runStyleWrites (host : DomHost) (w : World) : List (Nat × String) → World
  | [] => w
  | write :: rest =>
    runStyleWrites host (setAttribute host w write.1 "style" (.str write.2)).1 rest

/-! ## The legacy mutation events (lines 13-136) -/

/-- A DOM node: an identity and its `nodeType`. -/
structure DomNode where
  id : Nat
  nodeType : Nat
  deriving DecidableEq, Repr

/-- The constant `Node.ELEMENT_NODE`. -/
def ELEMENT_NODE : Nat := 1

/-- The constant `Node.TEXT_NODE`. -/
def TEXT_NODE : Nat := 3

/-- The `type` of a mutation record. -/
inductive RecordType where
  | childList
  | attributes
  | characterData
  deriving DecidableEq, Repr

/-- A mutation record as the observer delivers it. -/
structure MutationRecord where
  type : RecordType
  target : DomNode
  addedNodes : List DomNode := []
  removedNodes : List DomNode := []
  attributeName : Option String := none
  deriving DecidableEq, Repr

/-- An argument that may be left out (`undefined`) or be `null`. -/
inductive Arg (α : Type) where
  | undefined
  | null
  | val (a : α)
  deriving DecidableEq, Repr

/-- The object built by `createMutationEvent` (lines 24-36); its three methods do
nothing. -/
structure MutationEvent where
  type : String
  target : DomNode
  relatedNode : Arg DomNode
  attrName : Arg String
  attrChange : Arg Nat
  deriving DecidableEq, Repr

/-- The function `createMutationEvent`. -/
def createMutationEvent (type : String) (target : DomNode) (relatedNode : Arg DomNode)
    (attrName : Arg String) (attrChange : Arg Nat) : MutationEvent :=
  { type := type, target := target, relatedNode := relatedNode, attrName := attrName,
    attrChange := attrChange }

/-- One call `listener.call(thisArg, event)`. -/
structure Invocation where
  thisArg : DomNode
  event : MutationEvent
  deriving DecidableEq, Repr

/-- The inner `forEach` over added or removed nodes (lines 56-61 and 66-71): the calls
are appended to those made so far. -/
def forEachNode (type : String) (container : DomNode) (nodes : List DomNode)
    (calls : List Invocation) : List Invocation :=
  nodes.foldl
    (fun acc node =>
      if node.nodeType == ELEMENT_NODE || node.nodeType == TEXT_NODE then
        acc ++ [{ thisArg := node,
                  event := createMutationEvent type node (.val container)
                    .undefined .undefined }]
      else acc)
    calls

/-- The body of `mutations.forEach` (lines 49-91) for the event name `type` the
listener was registered under: the calls made for one record, appended to those made
so far. -/
def onMutation (type : String) (calls : List Invocation) (mutation : MutationRecord) :
    List Invocation :=
  let target := mutation.target
  if type == "DOMNodeInserted" then
    if mutation.type == .childList && mutation.addedNodes.length > 0 then
      forEachNode "DOMNodeInserted" mutation.target mutation.addedNodes calls
    else calls
  else if type == "DOMNodeRemoved" then
    if mutation.type == .childList && mutation.removedNodes.length > 0 then
      forEachNode "DOMNodeRemoved" mutation.target mutation.removedNodes calls
    else calls
  else if type == "DOMSubtreeModified" then
    calls ++ [{ thisArg := target,
                event := createMutationEvent "DOMSubtreeModified" target
                  .undefined .undefined .undefined }]
  else if type == "DOMAttrModified" then
    if mutation.type == .attributes then
      calls ++ [{ thisArg := target,
                  event := createMutationEvent "DOMAttrModified" target .null
                    (match mutation.attributeName with
                     | some name => .val name
                     | none => .null)
                    (.val (if truthyStr mutation.attributeName then 1 else 2)) }]
    else calls
  else if type == "DOMCharacterDataModified" then
    if mutation.type == .characterData then
      calls ++ [{ thisArg := target,
                  event := createMutationEvent "DOMCharacterDataModified" target
                    .undefined .undefined .undefined }]
    else calls
  else calls

/-- The observer callback created by `addEventListener(type, listener)` (lines 48-92):
the calls of `listener` for one batch of records, in call order. -/
def observerCallback (type : String) (mutations : List MutationRecord) : List Invocation :=
  mutations.foldl (onMutation type) []

/-! ## Specification-side definitions and sample inputs -/

/-- The format in force after `$onInit` on a fresh controller: the binding when it is
one of the four known formats, `'html'` otherwise. -/
def configuredFormat (c : Ctrl) : String :=
  (onInit c {}).format

/-- The outward value "in the configured format" as the specification describes it:
the plain text, the native contents, the JSON-encoded contents (the plain text when
encoding fails), or the markup. -/
def outwardValue (h : Host) (fmt : String) (ev : ChangeEvent) : JSVal :=
  if fmt = "text" then .str ev.text
  else if fmt = "object" then ev.content
  else if fmt = "json" then (h.jsonStringify ev.content).getD (.str ev.text)
  else ev.html

/-- The `$setValidity` calls for one validity key, in call order. -/
def flagWrites (key : String) : List Effect → List Bool
  | [] => []
  | .setValidity k v :: rest =>
    if k = key then v :: flagWrites key rest else flagWrites key rest
  | _ :: rest => flagWrites key rest

/-- Whether a call puts content into the editor (`setText` or `setContents`). -/
def Effect.isApply : Effect → Bool
  | .setText _ _ => true
  | .setContents _ _ => true
  | _ => false

/-- Whether a call is `$setValidity`. -/
def Effect.isValidity : Effect → Bool
  | .setValidity _ _ => true
  | _ => false

/-- Whether a call is `$setViewValue`. -/
def Effect.isViewValue : Effect → Bool
  | .setViewValue _ => true
  | _ => false

/-- The text a delta of plain insert operations stands for. -/
def insertedText : JSVal → String
  | .arr items =>
    items.foldl
      (fun acc item =>
        match item with
        | .obj [(_, .str s)] => acc ++ s
        | _ => acc)
      ""
  | _ => ""

/-- A small host for concrete runs: the editor's text is the last text set followed
by the editor's trailing newline, the converter wraps its input in one insert
operation, the JSON functions know the empty delta only, and `setContents` is
answered with a notification that shows the contents just set. -/
def sampleHost : Host where
  getText := fun calls =>
    match calls.getLast? with
    | some (.setText (.str s) _) => s ++ "\n"
    | _ => "\n"
  convert := fun v => .arr [.obj [("insert", v)]]
  sanitizeHtml := fun v => v
  jsonParse := fun v =>
    match v with
    | .str "[]" => some (.arr [])
    | _ => none
  jsonStringify := fun v =>
    match v with
    | .arr [] => some (.str "[]")
    | _ => none
  setContentsAnswer := fun delta =>
    some { snap := { html := "<p>" ++ insertedText delta ++ "</p>",
                     text := insertedText delta, contents := delta },
           delta := delta, oldDelta := .arr [] }

/-- The error a policy raises on an inline style write. -/
def securityError : Thrown :=
  .value (some "SecurityError") (some "Refused to apply inline style")

/-- A document whose policy rejects every inline style write (and nothing else). -/
def strictHost : DomHost where
  setAttributeThrows := fun _ name _ => if name == "style" then some securityError else none
  styleSetThrows := fun _ _ => some securityError
  setPropertyThrows := fun _ _ _ _ => some securityError
  cssTextThrows := fun _ _ => some securityError
  toStr := fun v =>
    match v with
    | .str s => s
    | .num n => toString n
    | _ => ""

/-- A style-attribute write that falls back: the text is not blank and the original
write throws a policy violation. -/
def FallsBack (host : DomHost) (write : Nat × String) : Prop :=
  nonBlank write.2 = true ∧
    ∃ e, host.setAttributeThrows write.1 "style" (.str write.2) = some e ∧
      isPolicyViolation e = .ok true

/-- The stylesheet the next rule goes to: the managed one, or a new empty one. -/
def sheetOf (host : DomHost) (w : World) : StyleSheet :=
  w.styleSheet.getD { legacy := host.legacySheet }

/-- A stylesheet with further rules appended, each in the way of line 167 or 170. -/
def appendRules (sheet : StyleSheet) (rules : List String) : StyleSheet :=
  if sheet.legacy then { sheet with cssText := sheet.cssText ++ String.join rules }
  else { sheet with textNodes := sheet.textNodes ++ rules }

/-- The rules a run of falling-back writes is specified to add when the first of
them gets the number `first`: for each write, in order, the text
`.ng-quill-csp-style-<number> { <style text> }` with the style text as written. -/
def expectedRules (first : Nat) : List (Nat × String) → List String
  | [] => []
  | write :: rest =>
    ("." ++ ("ng-quill-csp-style-" ++ toString first) ++ " \x7b " ++ write.2 ++ " \x7d") ::
      expectedRules (first + 1) rest

/-- A declaration object as the CSS object model defines it: neither `classList` nor
`parentElement`. -/
def plainDecl (owner : Nat) : StyleDecl :=
  { owner := owner }

/-- A thrown object that has a `name` but no `message`. -/
def bareError : Thrown :=
  .value (some "QuotaError") none

/-- A document whose original style writes throw `bareError`. -/
def faultyHost : DomHost where
  setAttributeThrows := fun _ name _ => if name == "style" then some bareError else none
  styleSetThrows := fun _ _ => some bareError
  setPropertyThrows := fun _ _ _ _ => some bareError
  cssTextThrows := fun _ _ => some bareError
  toStr := fun _ => ""

/-- The insertion events a batch is specified to produce: for every child-list
record, in order, one event per added node of element or text kind, in order, with
the node as target and the record's target as related node. -/
def insertionCalls (mutations : List MutationRecord) : List Invocation :=
  mutations.flatMap (fun m =>
    if m.type = .childList then
      (m.addedNodes.filter
        (fun node => node.nodeType = ELEMENT_NODE ∨ node.nodeType = TEXT_NODE)).map
        (fun node =>
          { thisArg := node,
            event := { type := "DOMNodeInserted", target := node,
                       relatedNode := .val m.target, attrName := .undefined,
                       attrChange := .undefined } })
    else [])

/-- The digit a decimal character stands for. -/
def digitOfChar (ch : Char) : Nat := ch.toNat - 48

/-! ## The registry of the legacy mutation events (lines 17-134) -/

/-- A `MutationObserver` made by `addEventListener`: its identity, the target it
observes, and the event name and the listener its callback has captured. -/
structure Observer where
  id : Nat
  target : Nat
  type : String
  listener : Nat
  deriving DecidableEq, Repr

/-- An element `{ observer, listener }` of a target's list in the map `observers`
(line 104); the event name is not part of it. -/
structure ObserverEntry where
  observer : Observer
  listener : Nat
  deriving DecidableEq, Repr

/-- A call handed on to the original `addEventListener` (`adding`) or
`removeEventListener`. -/
structure OriginalCall where
  adding : Bool
  target : Nat
  type : String
  listener : Nat
  deriving DecidableEq, Repr

/-- The state of the shim: the map `observers` from targets to their lists (`none`
when the target has no entry), the observers that are connected, in the order they
were connected, the number of observers constructed so far, and the calls handed on
to the original functions. Targets and listeners are numbered; `isNode` tells which
targets are DOM nodes, the others being event targets such as `window` that an
observer cannot observe. -/
structure Registry where
  observers : Nat → Option (List ObserverEntry) := fun _ => none
  live : List Observer := []
  made : Nat := 0
  original : List OriginalCall := []
  isNode : Nat → Bool := fun _ => true

/-- The `TypeError` raised by `observer.observe(target, config)` when the target is
not a node. -/
def observeError : Thrown :=
  .value (some "TypeError") (some "MutationObserver.observe: parameter 1 is not a Node")

/-- The test on the event name of lines 39-41 and 113-115. -/
def isLegacy (type : String) : Bool :=
  type == "DOMNodeInserted" || type == "DOMNodeRemoved" ||
  type == "DOMSubtreeModified" || type == "DOMAttrModified" ||
  type == "DOMCharacterDataModified"

/-- The replacement of `EventTarget.prototype.addEventListener` (lines 38-110): the
state afterwards and the value it throws, if any. For a legacy event name the target
gets an empty list in the map if it has none (lines 43-45), a new observer is
constructed (line 48), connected to the target (line 103) and pushed on the target's
list (line 104); when the target is not a node the call of line 103 throws, so
nothing is connected or pushed and the list stays as line 44 left it. Other names go
to the original function. -/
def addEventListener (r : Registry) (target : Nat) (type : String) (listener : Nat) :
    Registry × Option Thrown :=
  if isLegacy type then
    let observers1 : Nat → Option (List ObserverEntry) :=
      if (r.observers target).isSome then r.observers
      else Function.update r.observers target (some [])
    let observerList := (observers1 target).getD []
    let observer : Observer :=
      { id := r.made, target := target, type := type, listener := listener }
    if r.isNode target then
      ({ r with
         observers := Function.update observers1 target
           (some (observerList ++ [{ observer := observer, listener := listener }])),
         live := r.live ++ [observer],
         made := r.made + 1 }, none)
    else
      ({ r with observers := observers1, made := r.made + 1 }, some observeError)
  else
    ({ r with original := r.original ++
        [{ adding := true, target := target, type := type, listener := listener }] },
     none)

/-- The loop of lines 119-124, from the last element of the list to the first: an
element whose listener is the given one has its observer disconnected and is spliced
out. The result is the list that remains and the observers still connected. -/
def removeLoop (listener : Nat) (observerList : List ObserverEntry) (live : List Observer) :
    List ObserverEntry × List Observer :=
  observerList.foldr
    (fun entry acc =>
      if entry.listener == listener then
        (acc.1, acc.2.filter (fun o => o.id != entry.observer.id))
      else (entry :: acc.1, acc.2))
    ([], live)

/-- The replacement of `EventTarget.prototype.removeEventListener` (lines 112-134). -/
def removeEventListener (r : Registry) (target : Nat) (type : String) (listener : Nat) :
    Registry :=
  if isLegacy type then
    match r.observers target with
    | some observerList =>
      let looped := removeLoop listener observerList r.live
      { r with
        observers :=
          if looped.1.length == 0 then Function.update r.observers target none
          else Function.update r.observers target (some looped.1),
        live := looped.2 }
    | none => r
  else
    { r with original := r.original ++
        [{ adding := false, target := target, type := type, listener := listener }] }

/-- A call of one of the two replaced functions. -/
inductive ListenerCall where
  | add (target : Nat) (type : String) (listener : Nat)
  | remove (target : Nat) (type : String) (listener : Nat)
  deriving DecidableEq, Repr

/-- The state after one call. -/
def stepCall (r : Registry) : ListenerCall → Registry
  | .add target type listener => (addEventListener r target type listener).1
  | .remove target type listener => removeEventListener r target type listener

/-- The state after a sequence of calls. -/
def runCalls (r : Registry) (calls : List ListenerCall) : Registry :=
  calls.foldl stepCall r

/-- The connected observers that serve a pair of target and event name. -/
def liveFor (r : Registry) (target : Nat) (type : String) : List Observer :=
  r.live.filter (fun o => o.target == target && o.type == type)

/-- What a batch of mutation records on a target makes the connected observers of
that target do: for each of them, in order, its listener and the calls its callback
makes. -/
def deliver (r : Registry) (target : Nat) (mutations : List MutationRecord) :
    List (Nat × List Invocation) :=
  (r.live.filter (fun o => o.target == target)).map
    (fun o => (o.listener, observerCallback o.type mutations))

/-! ## Selection changes and destruction (lines 546-555 and 634-662) -/

/-- A selection range of the editor; an absent selection is `none` (`null`). -/
structure Range where
  index : Nat
  length : Nat
  deriving DecidableEq, Repr

/-- A range, or `null`, as the value handed to the callbacks. -/
def rangeValue : Option Range → JSVal
  | none => .null
  | some range => .obj [("index", .num range.index), ("length", .num range.length)]

/-- The `selection-change` handler (lines 634-662): the calls it makes at once, and
the calls of the callback it hands to `$scope.$applyAsync`. -/
def selectionChangeHandler (c : Ctrl) (range oldRange : Option Range) (source : Source) :
    List Effect × List Effect :=
  let focusPart : List Effect :=
    if range.isNone && c.onBlur then [.onBlur source]
    else if oldRange.isNone && c.onFocus then [.onFocus source]
    else []
  let selectionPart : List Effect :=
    if c.onSelectionChanged then
      [.onSelectionChanged (rangeValue oldRange) (rangeValue range) source]
    else []
  (focusPart ++ selectionPart, if range.isSome then [] else [.setTouched])

/-- The editor's emitter as far as the component uses it: the handlers registered
for each event name, handlers being numbered. -/
structure Emitter where
  handlers : String → List Nat := fun _ => []

/-- The call `editor.on(event, handler)`. -/
def Emitter.on (em : Emitter) (event : String) (handler : Nat) : Emitter :=
  { handlers := Function.update em.handlers event (em.handlers event ++ [handler]) }

/-- The call `removeListener(event)` without a handler argument, which removes every
handler of the event. -/
def Emitter.removeListener (em : Emitter) (event : String) : Emitter :=
  { handlers := Function.update em.handlers event [] }

/-- The two registrations of `_initEditor` (lines 634 and 665). -/
def registerHandlers (em : Emitter) (selectionHandler textHandler : Nat) : Emitter :=
  (em.on "selection-change" selectionHandler).on "text-change" textHandler

/-- The function `this.$onDestroy` (lines 546-555). -/
def onDestroy (cl : Closure) (em : Emitter) : Closure × Emitter :=
  let cl1 := { cl with editor := false }
  let em1 := if cl1.textChangeEvent then em.removeListener "text-change" else em
  let em2 :=
    if cl1.selectionChangeEvent then em1.removeListener "selection-change" else em1
  (cl1, em2)

/-- A sequence of `$onChanges` calls, one after the other: the closure at the end and
all calls made. -/
def runChanges (c : Ctrl) (h : Host) (cl : Closure) : List Changes → Closure × List Effect
  | [] => (cl, [])
  | changes :: rest =>
    let first := onChanges c h cl changes
    let later := runChanges c h first.1 rest
    (later.1, first.2 ++ later.2)

/-- The invariant of the registry: the identities of the connected observers are
below the number of observers made and pairwise different; the connected observers of
a target are the observers of the target's list, in the same order; and the listener
of each element of a list is the one its observer has captured. -/
def Registry.Inv (r : Registry) : Prop :=
  (∀ o ∈ r.live, o.id < r.made) ∧
  (r.live.map Observer.id).Nodup ∧
  (∀ t, r.live.filter (fun o => o.target == t)
      = ((r.observers t).getD []).map ObserverEntry.observer) ∧
  (∀ t l, r.observers t = some l → ∀ e ∈ l, e.listener = e.observer.listener)

/-- Whether a call is the selection-changed callback. -/
def Effect.isSelectionChanged : Effect → Bool
  | .onSelectionChanged _ _ _ => true
  | _ => false

/-- A component with the three selection callbacks registered. -/
def allCallbacks : Ctrl :=
  { onBlur := true, onFocus := true, onSelectionChanged := true }

/-! # Theorems -/

/-! ## Supporting lemmas -/

theorem flagWrites_append (key : String) (xs ys : List Effect) :
    flagWrites key (xs ++ ys) = flagWrites key xs ++ flagWrites key ys := by
  induction xs with
  | nil => rfl
  | cons x xs ih =>
    cases x <;> simp [flagWrites, ih]
    split <;> simp

theorem validateMax_cases (c : Ctrl) (n : Int) :
    validateMax c n = [] ∨ validateMax c n = [.setValidity "maxlength" false] ∨
      validateMax c n = [.setValidity "maxlength" true] := by
  unfold validateMax
  split
  · split
    · split <;> simp
    · simp
  · simp

theorem validateMin_cases (c : Ctrl) (n : Int) :
    validateMin c n = [] ∨ validateMin c n = [.setValidity "minlength" false] ∨
      validateMin c n = [.setValidity "minlength" true] := by
  unfold validateMin
  split
  · split
    · split
      · simp
      · split <;> simp
    · simp
  · simp

theorem validate_all_validity (c : Ctrl) (text : String) :
    ∀ e ∈ validate c text, e.isValidity = true := by
  intro e he
  simp only [validate] at he
  rcases List.mem_append.1 he with h | h
  · rcases validateMax_cases c (trimmedLength text : Nat) with h1 | h1 | h1 <;>
      rw [h1] at h <;> simp at h <;> subst h <;> rfl
  · rcases validateMin_cases c (trimmedLength text : Nat) with h1 | h1 | h1 <;>
      rw [h1] at h <;> simp at h <;> subst h <;> rfl

theorem flagWrites_validateMin_max (c : Ctrl) (n : Int) :
    flagWrites "maxlength" (validateMin c n) = [] := by
  rcases validateMin_cases c n with h | h | h <;> rw [h] <;> simp [flagWrites]

theorem flagWrites_validateMax_min (c : Ctrl) (n : Int) :
    flagWrites "minlength" (validateMax c n) = [] := by
  rcases validateMax_cases c n with h | h | h <;> rw [h] <;> simp [flagWrites]

theorem removeClasses_not_apply (v : JSVal) :
    ∀ e ∈ removeClasses v, e.isApply = false ∧ e.isValidity = false := by
  intro e he
  unfold removeClasses at he
  split at he
  · split at he
    · simp only [List.mem_map] at he
      obtain ⟨x, _, rfl⟩ := he
      exact ⟨rfl, rfl⟩
    · simp only [List.mem_map] at he
      obtain ⟨x, _, rfl⟩ := he
      exact ⟨rfl, rfl⟩
    · simp at he
  · simp at he

theorem addClasses_not_apply (v : JSVal) :
    ∀ e ∈ addClasses v, e.isApply = false ∧ e.isValidity = false := by
  intro e he
  unfold addClasses at he
  split at he
  · split at he
    · simp only [List.mem_map] at he
      obtain ⟨x, _, rfl⟩ := he
      exact ⟨rfl, rfl⟩
    · simp only [List.mem_map] at he
      obtain ⟨x, _, rfl⟩ := he
      exact ⟨rfl, rfl⟩
    · simp at he
  · simp at he

theorem onChanges_other_bindings (c : Ctrl) (h : Host) (cl : Closure) (changes : Changes)
    (hch : changes.ngModel = none) :
    ∀ e ∈ (onChanges c h cl changes).2, e.isApply = false ∧ e.isValidity = false := by
  intro e he
  simp only [onChanges, hch, List.nil_append, List.mem_append] at he
  rcases he with (he | he) | he
  · split at he
    · split at he
      · simp at he; subst he; exact ⟨rfl, rfl⟩
      · simp at he
    · simp at he
  · split at he
    · split at he
      · simp at he; subst he; exact ⟨rfl, rfl⟩
      · simp at he
    · simp at he
  · split at he
    · split at he
      · rcases List.mem_append.1 he with h1 | h1
        · exact removeClasses_not_apply _ e h1
        · exact addClasses_not_apply _ e h1
      · simp at he
    · simp at he

theorem applyExternal_isApply (c : Ctrl) (h : Host) (cl : Closure) (v : JSVal) :
    (applyExternal c h cl v).isApply = true := by
  unfold applyExternal
  split
  · split
    · rfl
    · split <;> rfl
  · rfl

theorem onChanges_model_split (c : Ctrl) (h : Host) (cl : Closure)
    (changes : Changes) (v : JSVal) (hed : cl.editor = true)
    (hch : changes.ngModel = some v) :
    (onChanges c h cl changes).1 = { cl with content := v, editorChanged := false } ∧
    (onChanges c h cl changes).2 =
      (if cl.editorChanged then []
       else applyExternal c h { cl with content := v } v ::
         validate c (h.getText [applyExternal c h { cl with content := v } v])) ++
      (onChanges c h cl { changes with ngModel := none }).2 := by
  constructor
  · simp [onChanges, hch, hed]
  · cases hfl : cl.editorChanged <;> simp [onChanges, hch, hed, hfl]

/-! ## C1: revert of a user edit over the maximum length -/

theorem textChangeHandler_not_user (depth : Nat) (c : Ctrl) (h : Host) (snap : Snapshot)
    (delta oldDelta : JSVal) (source : Source) (hsrc : source ≠ .user) :
    textChangeHandler (depth + 1) c h snap delta oldDelta source =
      some (validate c snap.text,
        some { html := if trimmedLength snap.text = 0 then .null else .str snap.html,
               text := snap.text, content := snap.contents, delta := delta,
               oldDelta := oldDelta, source := source }) := by
  have hb : (source == Source.user) = false := by simpa using hsrc
  simp [textChangeHandler, hb]

theorem validity_not_apply (e : Effect) (he : e.isValidity = true) :
    e.isApply = false ∧ e.isViewValue = false := by
  cases e <;> simp_all [Effect.isValidity, Effect.isApply, Effect.isViewValue]

theorem validate_filters (c : Ctrl) (text : String) :
    (validate c text).filter Effect.isApply = [] ∧
    (validate c text).filter Effect.isViewValue = [] := by
  constructor
  · rw [List.filter_eq_nil_iff]
    intro e he
    simp [(validity_not_apply e (validate_all_validity c text e he)).1]
  · rw [List.filter_eq_nil_iff]
    intro e he
    simp [(validity_not_apply e (validate_all_validity c text e he)).2]

theorem validate_maxlength_write (c : Ctrl) (text : String) (m : Int)
    (hmax : c.maxLength = some m) (hne : m ≠ 0) :
    flagWrites "maxlength" (validate c text)
      = [!decide (((trimmedLength text : Nat) : Int) > m)] := by
  simp only [validate, flagWrites_append, flagWrites_validateMin_max, List.append_nil]
  by_cases hgt : ((trimmedLength text : Nat) : Int) > m
  · simp [validateMax, hmax, truthyNum, hne, hgt, flagWrites]
  · simp [validateMax, hmax, truthyNum, hne, hgt, flagWrites]

theorem applyAsync_not_tracked (c : Ctrl) (cfg : ProviderConfig) (h : Host) (cl : Closure)
    (ev : ChangeEvent) (hn : pushesOutward c cfg ev.source = false) :
    (applyAsyncCallback c cfg h cl ev).1 = cl ∧
    (applyAsyncCallback c cfg h cl ev).2.filter Effect.isViewValue = [] := by
  cases hcb : c.onContentChanged <;>
    simp [applyAsyncCallback, hn, hcb, Effect.isViewValue]

/-- C1 (as stated, refuted): with `maxLength = 5`, content "hello" and a user
insertion of "!", the handler restores the old delta, and the editor's answer to that
`setContents` call, a `text-change` notification with source `api`, runs the handler
again before it returns: the validity flag `maxlength` is set, a callback is
scheduled, and under change tracking `all` that callback hands a value to
`$setViewValue`. And with `maxLength = 0` configured, a user edit whose trimmed text
has length 1 exceeds the maximum, yet nothing is restored. -/
theorem textChange_revert_sets_flag_and_schedules :
    textChangeHandler 2 { maxLength := some 5 } sampleHost
        ⟨"<p>hello!</p>", "hello!\n", .arr [.obj [("insert", .str "hello!\n")]]⟩
        (.arr [.obj [("insert", .str "!")]]) (.arr [.obj [("insert", .str "hello\n")]]) .user
      = some ([.setContents (.arr [.obj [("insert", .str "hello\n")]]) none,
               .setValidity "maxlength" true],
              some { html := .str "<p>hello\n</p>", text := "hello\n",
                     content := .arr [.obj [("insert", .str "hello\n")]],
                     delta := .arr [.obj [("insert", .str "hello\n")]],
                     oldDelta := .arr [], source := .api }) ∧
    (applyAsyncCallback { maxLength := some 5, trackChanges := some "all" } {} sampleHost
        { editor := true }
        { html := .str "<p>hello\n</p>", text := "hello\n",
          content := .arr [.obj [("insert", .str "hello\n")]],
          delta := .arr [.obj [("insert", .str "hello\n")]],
          oldDelta := .arr [], source := .api }).2
      = [.setViewValue (.str "<p>hello\n</p>")] ∧
    ((trimmedLength "a\n" : Nat) : Int) > 0 ∧
    textChangeHandler 2 { maxLength := some 0 } sampleHost ⟨"<p>a</p>", "a\n", .arr []⟩
        (.arr []) (.arr []) .user
      = some ([], some { html := .str "<p>a</p>", text := "a\n", content := .arr [],
                         delta := .arr [], oldDelta := .arr [], source := .user }) :=
  ⟨rfl, rfl, by decide, rfl⟩

/-- C1 (amended): for a `text-change` notification with source `user`, when
`maxLength` is configured with a non-zero value and the trimmed text length exceeds
it, the handler's first call is `editor.setContents(oldDelta)`, it is the only call
that puts content into the editor, and for the rejected notification the handler
validates nothing and schedules no callback. What else happens is the handler's run
on the notification with source `api` that the editor sends in answer to that call:
none if the editor sends nothing; otherwise the validation of the restored text,
which writes the flag `maxlength` once, false exactly when the restored text is
itself over the maximum, and one scheduled callback for the restored content. During
the handler no value reaches
`$setViewValue`; the scheduled callback hands a value outward only when the
effective change-tracking mode is `all`. Two levels of nesting always suffice. -/
theorem textChange_reverts_over_max (depth : Nat) (c : Ctrl) (cfg : ProviderConfig)
    (h : Host) (cl : Closure) (snap : Snapshot) (delta oldDelta : JSVal) (m : Int)
    (hdepth : 2 ≤ depth) (hmax : c.maxLength = some m) (hne : m ≠ 0)
    (hlen : ((trimmedLength snap.text : Nat) : Int) > m) :
    (h.setContentsAnswer oldDelta = none →
      textChangeHandler depth c h snap delta oldDelta .user
        = some ([.setContents oldDelta none], none)) ∧
    (∀ answer, h.setContentsAnswer oldDelta = some answer →
      textChangeHandler depth c h snap delta oldDelta .user
        = some (.setContents oldDelta none :: validate c answer.snap.text,
            some { html := if trimmedLength answer.snap.text = 0 then .null
                           else .str answer.snap.html,
                   text := answer.snap.text, content := answer.snap.contents,
                   delta := answer.delta, oldDelta := answer.oldDelta,
                   source := .api }) ∧
      flagWrites "maxlength" (.setContents oldDelta none :: validate c answer.snap.text)
        = [!decide (((trimmedLength answer.snap.text : Nat) : Int) > m)]) ∧
    (∃ effs scheduled,
      textChangeHandler depth c h snap delta oldDelta .user = some (effs, scheduled) ∧
      effs.filter Effect.isApply = [.setContents oldDelta none] ∧
      effs.filter Effect.isViewValue = [] ∧
      (∀ ev, scheduled = some ev →
        ev.source = .api ∧
        (effectiveTrackChanges c cfg ≠ "all" →
          (applyAsyncCallback c cfg h cl ev).1 = cl ∧
          (applyAsyncCallback c cfg h cl ev).2.filter Effect.isViewValue = []))) := by
  obtain ⟨d, rfl⟩ : ∃ d, depth = d + 2 := ⟨depth - 2, by omega⟩
  have hnone : h.setContentsAnswer oldDelta = none →
      textChangeHandler (d + 2) c h snap delta oldDelta .user
        = some ([.setContents oldDelta none], none) := by
    intro ha
    simp [textChangeHandler, truthyNum, exceedsMax, hmax, hne, hlen, ha]
  have hsome : ∀ answer, h.setContentsAnswer oldDelta = some answer →
      textChangeHandler (d + 2) c h snap delta oldDelta .user
        = some (.setContents oldDelta none :: validate c answer.snap.text,
            some { html := if trimmedLength answer.snap.text = 0 then .null
                           else .str answer.snap.html,
                   text := answer.snap.text, content := answer.snap.contents,
                   delta := answer.delta, oldDelta := answer.oldDelta,
                   source := .api }) := by
    intro answer ha
    have hnested := textChangeHandler_not_user d c h answer.snap answer.delta
      answer.oldDelta .api (by decide)
    rw [textChangeHandler]
    simp only [truthyNum, exceedsMax, hmax, hlen, ha, hnested]
    simp [hne]
  refine ⟨hnone, fun answer ha => ⟨hsome answer ha, ?_⟩, ?_⟩
  · simp only [flagWrites]
    exact validate_maxlength_write c answer.snap.text m hmax hne
  cases ha : h.setContentsAnswer oldDelta with
  | none =>
    refine ⟨_, _, hnone ha, ?_, ?_, ?_⟩
    · simp [Effect.isApply]
    · simp [Effect.isViewValue]
    · intro ev hev; cases hev
  | some answer =>
    refine ⟨_, _, hsome answer ha, ?_, ?_, ?_⟩
    · simp [List.filter_cons, Effect.isApply, (validate_filters c answer.snap.text).1]
    · simp [List.filter_cons, Effect.isViewValue, (validate_filters c answer.snap.text).2]
    · intro ev hev
      injection hev with hev
      subst hev
      refine ⟨rfl, ?_⟩
      intro hmode
      apply applyAsync_not_tracked
      cases hp : pushesOutward c cfg Source.api
      · rfl
      · simp only [pushesOutward, Bool.or_eq_true, Bool.and_eq_true, beq_iff_eq] at hp
        rcases hp with h1 | h1
        · cases h1
        · exact absurd h1.2 hmode

/-- C1 witness: `maxLength = 5`, content "hello", a user insertion of "!", on an
editor that answers the restoring call with a notification for "hello". -/
theorem textChange_reverts_over_max_witness :
    textChangeHandler 2 { maxLength := some 5 } sampleHost
        ⟨"<p>hello!</p>", "hello!\n", .arr [.obj [("insert", .str "hello!\n")]]⟩
        (.arr [.obj [("insert", .str "!")]]) (.arr [.obj [("insert", .str "hello\n")]]) .user
      = some (.setContents (.arr [.obj [("insert", .str "hello\n")]]) none ::
                validate { maxLength := some 5 } "hello\n",
              some { html := if trimmedLength "hello\n" = 0 then .null
                             else .str "<p>hello\n</p>",
                     text := "hello\n",
                     content := .arr [.obj [("insert", .str "hello\n")]],
                     delta := .arr [.obj [("insert", .str "hello\n")]],
                     oldDelta := .arr [], source := .api }) :=
  ((textChange_reverts_over_max 2 { maxLength := some 5 } {} sampleHost {}
    ⟨"<p>hello!</p>", "hello!\n", .arr [.obj [("insert", .str "hello!\n")]]⟩
    (.arr [.obj [("insert", .str "!")]]) (.arr [.obj [("insert", .str "hello\n")]]) 5
    (by decide) rfl (by decide) (by decide)).2.1 _ rfl).1

/-! ## C2: the editor-originated flag suppresses one external value -/

/-- C2: for an external value change `v` received by `$onChanges` while the editor
exists, the flag `editorChanged` is false afterwards; if it was set, the change causes
no editor call and no validity call for the model; if it was clear, the calls are the
applying call (`setText` or `setContents`) followed by the validation of the editor's
text, followed by what the other changed bindings cause; hence a call that puts
content into the editor happens exactly when the flag was clear, and a value arriving
right after a suppressed one is applied. -/
theorem onChanges_applies_iff_flag_clear (c : Ctrl) (h : Host) (cl : Closure)
    (changes : Changes) (v : JSVal) (hed : cl.editor = true)
    (hch : changes.ngModel = some v) :
    (onChanges c h cl changes).1.editorChanged = false ∧
    (onChanges c h cl changes).2 =
      (if cl.editorChanged then []
       else applyExternal c h { cl with content := v } v ::
         validate c (h.getText [applyExternal c h { cl with content := v } v])) ++
      (onChanges c h cl { changes with ngModel := none }).2 ∧
    ((∃ e ∈ (onChanges c h cl changes).2, e.isApply = true) ↔ cl.editorChanged = false) ∧
    (cl.editorChanged = true →
      ∀ e ∈ (onChanges c h cl changes).2, e.isApply = false ∧ e.isValidity = false) ∧
    (∀ v2 : JSVal, ∃ rest,
      (onChanges c h (onChanges c h cl changes).1 { ngModel := some v2 }).2 =
        applyExternal c h { (onChanges c h cl changes).1 with content := v2 } v2 :: rest) := by
  obtain ⟨h1, h2⟩ := onChanges_model_split c h cl changes v hed hch
  have hrest := onChanges_other_bindings c h cl { changes with ngModel := none } rfl
  refine ⟨by rw [h1], h2, ?_, ?_, ?_⟩
  · rw [h2]
    constructor
    · rintro ⟨e, he, hap⟩
      rcases List.mem_append.1 he with h3 | h3
      · cases hfl : cl.editorChanged
        · rfl
        · simp [hfl] at h3
      · rw [(hrest e h3).1] at hap
        cases hap
    · intro hfl
      exact ⟨applyExternal c h { cl with content := v } v, by simp [hfl],
        applyExternal_isApply _ _ _ _⟩
  · intro hfl e he
    rw [h2, hfl] at he
    simp only [if_true, List.nil_append] at he
    exact hrest e he
  · intro v2
    have hed2 : (onChanges c h cl changes).1.editor = true := by rw [h1]; exact hed
    have hfl2 : (onChanges c h cl changes).1.editorChanged = false := by rw [h1]
    obtain ⟨_, h4⟩ := onChanges_model_split c h (onChanges c h cl changes).1
      { ngModel := some v2 } v2 hed2 rfl
    rw [h4, hfl2]
    exact ⟨_, rfl⟩

/-- C2 witness: with the flag set, an external value is swallowed and the flag is
clear afterwards. -/
theorem onChanges_applies_iff_flag_clear_witness :
    (onChanges { format := some "text" } sampleHost
        { format := "text", editor := true, editorChanged := true }
        { ngModel := some (.str "one") }).1.editorChanged = false :=
  (onChanges_applies_iff_flag_clear { format := some "text" } sampleHost
      { format := "text", editor := true, editorChanged := true }
      { ngModel := some (.str "one") } (.str "one") rfl rfl).1

/-- A concrete run for C2: the first value after an outward push makes no call, the
second one is set as the editor's text. -/
theorem onChanges_suppresses_once_example :
    (onChanges { format := some "text" } sampleHost
        { format := "text", editor := true, editorChanged := true }
        { ngModel := some (.str "one") }).2 = [] ∧
    (onChanges { format := some "text" } sampleHost
        (onChanges { format := some "text" } sampleHost
          { format := "text", editor := true, editorChanged := true }
          { ngModel := some (.str "one") }).1
        { ngModel := some (.str "two") }).2 = [.setText (.str "two") none] :=
  ⟨rfl, rfl⟩

/-! ## C3: which notifications are pushed outward -/

theorem strictEqStr_iff (text : String) (v : JSVal) :
    JSVal.strictEqStr text v = true ↔ v = .str text := by
  cases v <;> simp [JSVal.strictEqStr]

theorem configuredFormat_cases (c : Ctrl) :
    (configuredFormat c = "text" ↔ c.format = some "text") ∧
    (configuredFormat c = "object" ↔ c.format = some "object") ∧
    (configuredFormat c = "json" ↔ c.format = some "json") := by
  unfold configuredFormat onInit
  cases hf : c.format with
  | none => simp; decide
  | some f =>
    by_cases h1 : f = "text"
    · subst h1; simp
    by_cases h2 : f = "object"
    · subst h2; simp
    by_cases h3 : f = "json"
    · subst h3; simp
    by_cases h4 : f = "html"
    · subst h4; simp
    simp [h1, h2, h3, h4]; decide

theorem pushesOutward_iff (c : Ctrl) (cfg : ProviderConfig) (source : Source) :
    pushesOutward c cfg source = true ↔
      (source = .user ∨ effectiveTrackChanges c cfg = "all") := by
  unfold pushesOutward
  constructor
  · intro h
    simp only [Bool.or_eq_true, Bool.and_eq_true, beq_iff_eq] at h
    rcases h with h | ⟨_, h⟩
    · exact Or.inl h
    · exact Or.inr h
  · rintro (h | h)
    · simp [h]
    · simp [h]

/-- C3 (as stated, refuted): with format `text` a user edit whose text equals the
control's current view value takes the push condition, yet no value is handed to
`$setViewValue` and the flag is clear when the callback ends. -/
theorem applyAsync_text_unchanged_not_handed :
    pushesOutward { format := some "text" } {} .user = true ∧
    (applyAsyncCallback { format := some "text" } {} sampleHost
        { format := "text", editor := true, viewValue := .str "a\n" }
        { html := .str "<p>a</p>", text := "a\n", content := .arr [], delta := .arr [],
          oldDelta := .arr [], source := .user }).2 = [] ∧
    (applyAsyncCallback { format := some "text" } {} sampleHost
        { format := "text", editor := true, viewValue := .str "a\n" }
        { html := .str "<p>a</p>", text := "a\n", content := .arr [], delta := .arr [],
          oldDelta := .arr [], source := .user }).1.editorChanged = false :=
  ⟨rfl, rfl, rfl⟩

theorem pushBranch_spec (c : Ctrl) (h : Host) (cl : Closure) (ev : ChangeEvent)
    (hfmt : cl.format = configuredFormat c) :
    (cl.format = "text" ∧ cl.viewValue = .str ev.text →
      pushBranch c h cl ev = ({ cl with editorChanged := false }, [])) ∧
    (¬(cl.format = "text" ∧ cl.viewValue = .str ev.text) →
      pushBranch c h cl ev =
        ({ cl with editorChanged := true,
                   viewValue := outwardValue h (configuredFormat c) ev },
         [.setViewValue (outwardValue h (configuredFormat c) ev)])) := by
  obtain ⟨_, _, hj⟩ := configuredFormat_cases c
  constructor
  · rintro ⟨h1, h2⟩
    simp [pushBranch, h1, h2, JSVal.strictEqStr]
  · intro hn
    by_cases h1 : cl.format = "text"
    · have h2 : ¬ cl.viewValue = .str ev.text := fun h2 => hn ⟨h1, h2⟩
      have h3 : JSVal.strictEqStr ev.text cl.viewValue = false := by
        cases hv : JSVal.strictEqStr ev.text cl.viewValue
        · rfl
        · exact absurd ((strictEqStr_iff _ _).1 hv) h2
      rw [← hfmt]
      simp [pushBranch, h1, h3, setViewValue, outwardValue]
    · by_cases h2 : cl.format = "object"
      · rw [← hfmt]
        simp [pushBranch, h2, setViewValue, outwardValue]
      · by_cases h3 : c.format = some "json"
        · have h4 : cl.format = "json" := by rw [hfmt]; exact hj.2 h3
          rw [← hfmt]
          cases hs : h.jsonStringify ev.content <;>
            simp [pushBranch, h4, h3, hs, setViewValue, outwardValue]
        · have h4 : ¬ cl.format = "json" := by
            rw [hfmt]; exact fun h5 => h3 (hj.1 h5)
          rw [← hfmt]
          simp [pushBranch, h1, h2, h3, h4, setViewValue, outwardValue]

/-- C3 (amended): the effective change-tracking mode is the `trackChanges` binding
when it is set (non-empty) and the provider's value otherwise. For a notification
that reaches the `$applyAsync` callback, if the source is `user` or the effective
mode is `all`, then, unless the format is `text` and the text equals the control's
current view value, the flag `editorChanged` is set and exactly one value, the one in
the configured format, is handed to `$setViewValue`; in the excepted case the flag is
clear afterwards and nothing is handed. If the source is not `user` and the mode is
not `all` (in particular with mode `user` and source `api` or `silent`), the closure
and the view value are unchanged and nothing is handed. -/
theorem applyAsync_pushes_iff_tracked (c : Ctrl) (cfg : ProviderConfig) (h : Host)
    (cl : Closure) (ev : ChangeEvent) (hfmt : cl.format = configuredFormat c) :
    (c.trackChanges = none ∨ c.trackChanges = some "" →
      effectiveTrackChanges c cfg = cfg.trackChanges) ∧
    (∀ s, c.trackChanges = some s → s ≠ "" → effectiveTrackChanges c cfg = s) ∧
    ((ev.source = .user ∨ effectiveTrackChanges c cfg = "all") →
      ¬(cl.format = "text" ∧ cl.viewValue = .str ev.text) →
      (applyAsyncCallback c cfg h cl ev).1.editorChanged = true ∧
      (applyAsyncCallback c cfg h cl ev).1.viewValue
        = outwardValue h (configuredFormat c) ev ∧
      (applyAsyncCallback c cfg h cl ev).2.filter Effect.isViewValue
        = [.setViewValue (outwardValue h (configuredFormat c) ev)]) ∧
    ((ev.source = .user ∨ effectiveTrackChanges c cfg = "all") →
      (cl.format = "text" ∧ cl.viewValue = .str ev.text) →
      (applyAsyncCallback c cfg h cl ev).1.editorChanged = false ∧
      (applyAsyncCallback c cfg h cl ev).2.filter Effect.isViewValue = []) ∧
    (¬(ev.source = .user ∨ effectiveTrackChanges c cfg = "all") →
      (applyAsyncCallback c cfg h cl ev).1 = cl ∧
      (applyAsyncCallback c cfg h cl ev).2.filter Effect.isViewValue = []) ∧
    (effectiveTrackChanges c cfg = "user" → ev.source ≠ .user →
      (applyAsyncCallback c cfg h cl ev).1.viewValue = cl.viewValue ∧
      (applyAsyncCallback c cfg h cl ev).2.filter Effect.isViewValue = []) := by
  obtain ⟨hnoop, hpush⟩ := pushBranch_spec c h cl ev hfmt
  have hno : ¬(ev.source = .user ∨ effectiveTrackChanges c cfg = "all") →
      (applyAsyncCallback c cfg h cl ev).1 = cl ∧
      (applyAsyncCallback c cfg h cl ev).2.filter Effect.isViewValue = [] := by
    intro hn
    have hp : pushesOutward c cfg ev.source = false := by
      cases hq : pushesOutward c cfg ev.source
      · rfl
      · exact absurd ((pushesOutward_iff _ _ _).1 hq) hn
    cases hcb : c.onContentChanged <;>
      simp [applyAsyncCallback, hp, hcb, Effect.isViewValue]
  refine ⟨?_, ?_, ?_, ?_, hno, ?_⟩
  · rintro (h1 | h1) <;> simp [effectiveTrackChanges, h1]
  · intro s h1 h2
    simp [effectiveTrackChanges, h1, h2]
  · intro hc hn
    have hp := (pushesOutward_iff c cfg ev.source).2 hc
    cases hcb : c.onContentChanged <;>
      simp [applyAsyncCallback, hp, hpush hn, hcb, Effect.isViewValue]
  · intro hc hn
    have hp := (pushesOutward_iff c cfg ev.source).2 hc
    cases hcb : c.onContentChanged <;>
      simp [applyAsyncCallback, hp, hnoop hn, hcb, Effect.isViewValue]
  · intro hm hs
    have hn : ¬(ev.source = .user ∨ effectiveTrackChanges c cfg = "all") := by
      rintro (h1 | h1)
      · exact hs h1
      · rw [hm] at h1
        exact absurd h1 (by decide)
    obtain ⟨h1, h2⟩ := hno hn
    exact ⟨by rw [h1], h2⟩

/-- C3 witness: format `html`, provider mode `all`, an `api` notification: the markup
is handed to the control and the flag is set. -/
theorem applyAsync_pushes_iff_tracked_witness :
    (applyAsyncCallback {} { trackChanges := "all" } sampleHost { editor := true }
        { html := .str "<p>a</p>", text := "a\n", content := .arr [], delta := .arr [],
          oldDelta := .arr [], source := .api }).1.editorChanged = true :=
  ((applyAsync_pushes_iff_tracked {} { trackChanges := "all" } sampleHost { editor := true }
      { html := .str "<p>a</p>", text := "a\n", content := .arr [], delta := .arr [],
        oldDelta := .arr [], source := .api } rfl).2.2.1
    (Or.inr rfl) (by simp)).1

/-! ## C4: the validity flags written by `validate` -/

/-- C4 (as stated, refuted): with the maximum `0` configured and a text of trimmed
length 1, which exceeds it, `validate` does not write the `maxlength` flag at all. -/
theorem validate_zero_max_writes_no_flag :
    ((trimmedLength "a" : Nat) : Int) > 0 ∧
    flagWrites "maxlength" (validate { maxLength := some 0 } "a") = [] ∧
    validate { maxLength := some 0 } "a" = [] :=
  ⟨by decide, rfl, rfl⟩

/-- C4 (amended): with `L` the length of the trimmed text, `validate` writes only
validity flags; when a non-zero maximum is configured it writes `maxlength` once, false
if and only if `L > maxLength`; when no maximum or the maximum `0` is configured it
does not write `maxlength`; when `minLength > 0` it writes `minlength` once, true if
`L = 0` or `L >= minLength` and false otherwise; when `minLength` is absent or not
greater than `0` it does not write `minlength`. -/
theorem validate_flags (c : Ctrl) (text : String) :
    (∀ e ∈ validate c text, e.isValidity = true) ∧
    (∀ m : Int, c.maxLength = some m → m ≠ 0 →
      flagWrites "maxlength" (validate c text)
        = [!decide (((trimmedLength text : Nat) : Int) > m)]) ∧
    (c.maxLength = none ∨ c.maxLength = some 0 →
      flagWrites "maxlength" (validate c text) = []) ∧
    (∀ m : Int, c.minLength = some m → m > 0 →
      flagWrites "minlength" (validate c text)
        = [decide (trimmedLength text = 0 ∨ ((trimmedLength text : Nat) : Int) ≥ m)]) ∧
    (c.minLength = none ∨ (∃ m : Int, c.minLength = some m ∧ m ≤ 0) →
      flagWrites "minlength" (validate c text) = []) := by
  refine ⟨validate_all_validity c text, ?_, ?_, ?_, ?_⟩
  · intro m hm hne
    simp only [validate, flagWrites_append, flagWrites_validateMin_max, List.append_nil]
    by_cases hgt : ((trimmedLength text : Nat) : Int) > m
    · simp [validateMax, hm, truthyNum, hne, hgt, flagWrites]
    · simp [validateMax, hm, truthyNum, hne, hgt, flagWrites]
  · intro hm
    simp only [validate, flagWrites_append, flagWrites_validateMin_max, List.append_nil]
    rcases hm with hm | hm <;> simp [validateMax, hm, truthyNum, flagWrites]
  · intro m hm hpos
    simp only [validate, flagWrites_append, flagWrites_validateMax_min, List.nil_append]
    by_cases h0 : trimmedLength text = 0
    · simp [validateMin, hm, hpos, h0, flagWrites]
    · by_cases hlt : ((trimmedLength text : Nat) : Int) < m
      · have : ¬ m ≤ ((trimmedLength text : Nat) : Int) := not_le.2 hlt
        simp [validateMin, hm, hpos, h0, hlt, this, flagWrites]
      · have : m ≤ ((trimmedLength text : Nat) : Int) := not_lt.1 hlt
        simp [validateMin, hm, hpos, h0, hlt, this, flagWrites]
  · intro hm
    simp only [validate, flagWrites_append, flagWrites_validateMax_min, List.nil_append]
    rcases hm with hm | ⟨m, hm, hle⟩
    · simp [validateMin, hm, flagWrites]
    · have : ¬ m > 0 := not_lt.2 hle
      simp [validateMin, hm, this, flagWrites]

/-- C4 witness: bounds 5 and 3 on a text of trimmed length 6. -/
theorem validate_flags_witness :
    flagWrites "maxlength" (validate { maxLength := some 5, minLength := some 3 } " hello! ")
      = [!decide (((trimmedLength " hello! " : Nat) : Int) > 5)] ∧
    flagWrites "minlength" (validate { maxLength := some 5, minLength := some 3 } " hello! ")
      = [decide (trimmedLength " hello! " = 0 ∨ ((trimmedLength " hello! " : Nat) : Int) ≥ 3)] :=
  ⟨(validate_flags { maxLength := some 5, minLength := some 3 } " hello! ").2.1 5 rfl
      (by decide),
   (validate_flags { maxLength := some 5, minLength := some 3 } " hello! ").2.2.2.1 3 rfl
      (by decide)⟩

/-- A concrete run for C4: trimmed length 6 against the bounds 5 and 3. -/
theorem validate_example :
    validate { maxLength := some 5, minLength := some 3 } " hello! "
      = [.setValidity "maxlength" false, .setValidity "minlength" true] := rfl

/-! ## C5: malformed JSON degrades to plain text -/

/-- C5 (as stated, refuted): the empty string is not valid JSON, yet with format
`json` the initial-content path makes no `setText` call for it: it makes no editor
call at all. -/
theorem initialContent_empty_json_not_inserted :
    sampleHost.jsonParse (.str "") = none ∧
    initialContent { format := some "json" } sampleHost
      (onInit { format := some "json" } { content := .str "", editor := true }) = [] ∧
    (_initEditor { format := some "json" } sampleHost
      (onInit { format := some "json" } { content := .str "" })).toOption.map Prod.snd
        = some [] :=
  ⟨rfl, rfl, rfl⟩

/-- C5 (amended): with format `json`, for every external string that `JSON.parse`
rejects, the setter returns the one-operation delta `[{insert: value}]` carrying the
raw string; an external change hands that delta to `setContents`; and the
initial-content path, when the string is not empty, calls `setText` with the raw
string (silently) and then clears the history. For the empty string the
initial-content path makes no call. -/
theorem json_parse_failure_falls_back (c : Ctrl) (h : Host) (cl : Closure) (s : String)
    (hjson : c.format = some "json") (hfmt : cl.format = configuredFormat c)
    (hbad : h.jsonParse (.str s) = none) :
    setter c h cl (.str s) = .arr [.obj [("insert", .str s)]] ∧
    applyExternal c h cl (.str s)
      = .setContents (.arr [.obj [("insert", .str s)]]) none ∧
    (s ≠ "" →
      initialContent c h { cl with content := .str s }
        = [.setText (.str s) (some .silent), .historyClear]) ∧
    (s = "" → initialContent c h { cl with content := .str s } = []) := by
  have hcl : cl.format = "json" := by
    rw [hfmt]; exact (configuredFormat_cases c).2.2.2 hjson
  have hset : setter c h cl (.str s) = .arr [.obj [("insert", .str s)]] := by
    simp [setter, hcl, hjson, hbad]
  refine ⟨hset, ?_, ?_, ?_⟩
  · simp [applyExternal, JSVal.isPresent, hjson, hset]
  · intro hne
    simp [initialContent, JSVal.truthy, hne, hcl, hbad]
  · intro he
    simp [initialContent, JSVal.truthy, he]

/-- C5 witness: the malformed text `{oops` as external value. -/
theorem json_parse_failure_falls_back_witness :
    setter { format := some "json" } sampleHost { format := "json" } (.str "\x7boops")
      = .arr [.obj [("insert", .str "\x7boops")]] ∧
    initialContent { format := some "json" } sampleHost
        { format := "json", content := .str "\x7boops" }
      = [.setText (.str "\x7boops") (some .silent), .historyClear] :=
  ⟨(json_parse_failure_falls_back { format := some "json" } sampleHost { format := "json" }
      "\x7boops" rfl rfl rfl).1,
   (json_parse_failure_falls_back { format := some "json" } sampleHost { format := "json" }
      "\x7boops" rfl rfl rfl).2.2.1 (by decide)⟩

/-! ## C6: markup-free strings with format `html` -/

/-- C6 (the code at the failing input): with the `format` binding left unset the
format in force is `html`; the string "hello" has no `<`; arriving as an external
change it is passed through the HTML-to-delta converter and applied with
`setContents`, not with `setText`. -/
theorem onChanges_default_html_plain_string_converted :
    configuredFormat {} = "html" ∧ noTagMarker "hello" = true ∧
    (onChanges {} sampleHost (onInit {} { editor := true, editorElem := true })
        { ngModel := some (.str "hello") }).2
      = [.setContents (sampleHost.convert (.str "hello")) none] :=
  ⟨rfl, rfl, rfl⟩

/-- On every host, with the format binding unset or unknown, an external change to a
markup-free string goes through `clipboard.convert`. -/
theorem applyExternal_default_html_converts (c : Ctrl) (h : Host) (cl : Closure)
    (s : String) (hfmt : cl.format = "html") (hb : c.format ≠ some "html")
    (ht : c.format ≠ some "text") :
    applyExternal c h cl (.str s)
      = .setContents (h.convert (if c.sanitize then h.sanitizeHtml (.str s) else .str s))
          none := by
  simp [applyExternal, JSVal.isPresent, hb, ht, setter, hfmt]

/-- With the format binding `html`, an external change to a markup-free string is
applied with `setText`. -/
theorem applyExternal_explicit_html_plain (c : Ctrl) (h : Host) (cl : Closure)
    (s : String) (hb : c.format = some "html") (hs : noTagMarker s = true) :
    applyExternal c h cl (.str s) = .setText (.str s) none := by
  simp [applyExternal, JSVal.isPresent, hb, JSVal.plainString, hs]

/-- As initial content, with the format in force `html` (explicit or default), a
non-empty markup-free string is applied with `setText` and never converted. -/
theorem initialContent_html_plain (c : Ctrl) (h : Host) (cl : Closure) (s : String)
    (hfmt : cl.format = "html") (hs : noTagMarker s = true) (hne : s ≠ "") :
    initialContent c h { cl with content := .str s }
      = [.setText (.str s) (some .silent), .historyClear] := by
  simp [initialContent, JSVal.truthy, hne, hfmt, JSVal.plainString, hs]

/-! ## C7: class allocation by the style-attribute fallback -/

theorem digitOfChar_digitChar : ∀ d : Nat, d < 10 → digitOfChar (Nat.digitChar d) = d := by
  decide

theorem toDigitsCore_eq_digits : ∀ (fuel n : Nat) (ds : List Char), n < fuel → 0 < n →
    Nat.toDigitsCore 10 fuel n ds = ((Nat.digits 10 n).map Nat.digitChar).reverse ++ ds := by
  intro fuel
  induction fuel with
  | zero => intro n ds h; omega
  | succ f ih =>
    intro n ds hlt hpos
    have hd : Nat.digits 10 n = (n % 10) :: Nat.digits 10 (n / 10) :=
      Nat.digits_def' (by norm_num) hpos
    simp only [Nat.toDigitsCore]
    by_cases hq : n / 10 = 0
    · simp [hq, hd]
    · have hq0 : 0 < n / 10 := Nat.pos_of_ne_zero hq
      have hqf : n / 10 < f := by omega
      simp only [hq, if_false]
      rw [ih (n / 10) _ hqf hq0, hd]
      simp

theorem toDigits_decode (n : Nat) :
    Nat.ofDigits 10 (((Nat.toDigits 10 n).map digitOfChar).reverse) = n := by
  by_cases h0 : n = 0
  · subst h0; decide
  · have hpos : 0 < n := Nat.pos_of_ne_zero h0
    unfold Nat.toDigits
    rw [toDigitsCore_eq_digits (n + 1) n [] (by omega) hpos]
    simp only [List.append_nil, List.map_reverse, List.reverse_reverse, List.map_map]
    have : (Nat.digits 10 n).map (digitOfChar ∘ Nat.digitChar) = Nat.digits 10 n := by
      conv_rhs => rw [← List.map_id (Nat.digits 10 n)]
      apply List.map_congr_left
      intro d hd
      exact digitOfChar_digitChar d (Nat.digits_lt_base (by norm_num) hd)
    rw [this, Nat.ofDigits_digits]

theorem toString_nat_injective (a b : Nat) (h : toString a = toString b) : a = b := by
  have h1 : Nat.toDigits 10 a = Nat.toDigits 10 b := by
    have := congrArg String.data h
    simpa [toString, Nat.repr, List.asString] using this
  rw [← toDigits_decode a, ← toDigits_decode b, h1]

theorem className_injective (a b : Nat) (h : className a = className b) : a = b := by
  apply toString_nat_injective
  have := congrArg String.data h
  simp only [className, String.data_append] at this
  exact String.ext (List.append_cancel_left this)

theorem join_foldl (acc : String) (rules : List String) :
    rules.foldl (fun r s => r ++ s) acc = acc ++ String.join rules := by
  induction rules generalizing acc with
  | nil => simp [String.join]
  | cons r rs ih =>
    simp only [List.foldl_cons, String.join]
    rw [ih (acc ++ r), ih ("" ++ r)]
    simp [String.append_assoc]

theorem join_cons (r : String) (rules : List String) :
    String.join (r :: rules) = r ++ String.join rules := by
  simp only [String.join, List.foldl_cons]
  rw [join_foldl]
  simp [String.join]

theorem appendRules_nil (sheet : StyleSheet) : appendRules sheet [] = sheet := by
  unfold appendRules
  split <;> simp [String.join]

theorem appendRules_cons (sheet : StyleSheet) (r : String) (rules : List String) :
    appendRules (appendRules sheet [r]) rules = appendRules sheet (r :: rules) := by
  unfold appendRules
  by_cases hl : sheet.legacy = true
  · have h1 : String.join [r] = r := by simp [String.join]
    simp [hl, join_cons, h1, String.append_assoc]
  · simp [hl]

theorem classListAdd_mem (w : World) (element : Nat) (cls : String) :
    cls ∈ (classListAdd w element cls).classList element := by
  unfold classListAdd
  split
  · assumption
  · simp

theorem classListAdd_mono (w : World) (element : Nat) (cls : String) (el : Nat) (c : String)
    (h : c ∈ w.classList el) : c ∈ (classListAdd w element cls).classList el := by
  unfold classListAdd
  split
  · exact h
  · by_cases he : el = element
    · subst he; simp [h]
    · simp [Function.update, he, h]

theorem classListAdd_fields (w : World) (element : Nat) (cls : String) :
    (classListAdd w element cls).styleCounter = w.styleCounter ∧
    (classListAdd w element cls).styleSheet = w.styleSheet ∧
    (classListAdd w element cls).headStyles = w.headStyles := by
  unfold classListAdd
  split <;> simp

theorem originalSetAttribute_fields (host : DomHost) (w : World) (element : Nat)
    (name : String) (value : JSVal) :
    (originalSetAttribute host w element name value).1.styleCounter = w.styleCounter ∧
    (originalSetAttribute host w element name value).1.styleSheet = w.styleSheet ∧
    (originalSetAttribute host w element name value).1.headStyles = w.headStyles ∧
    (originalSetAttribute host w element name value).1.classList = w.classList := by
  unfold originalSetAttribute
  split <;> simp

theorem convert_fields (host : DomHost) (w : World) (element : Option Nat)
    (styleValue : String) :
    (convertInlineStyleToClass host w element styleValue).2 = className (w.styleCounter + 1) ∧
    (convertInlineStyleToClass host w element styleValue).1.styleCounter
      = w.styleCounter + 1 ∧
    (convertInlineStyleToClass host w element styleValue).1.styleSheet
      = some (appendRules (sheetOf host w)
          [ruleText (className (w.styleCounter + 1)) styleValue]) ∧
    (convertInlineStyleToClass host w element styleValue).1.headStyles
      = w.headStyles + (if w.styleSheet.isSome then 0 else 1) ∧
    (convertInlineStyleToClass host w element styleValue).1.classList = w.classList := by
  unfold convertInlineStyleToClass ensureStyleSheet sheetOf appendRules
  cases hs : w.styleSheet with
  | none =>
    simp only [Option.getD_none, Option.isSome_none]
    by_cases hl : host.legacySheet = true <;> simp [hl, String.join]
  | some sheet =>
    simp only [Option.getD_some, Option.isSome_some]
    by_cases hl : sheet.legacy = true <;> simp [hl, String.join]

/-- One falling-back style-attribute write: the next number is allocated, its rule is
appended to the managed stylesheet, and the class is added to the target. -/
theorem setAttribute_fallback_step (host : DomHost) (w : World) (write : Nat × String)
    (hfb : FallsBack host write) :
    (setAttribute host w write.1 "style" (.str write.2)).1.styleCounter
      = w.styleCounter + 1 ∧
    (setAttribute host w write.1 "style" (.str write.2)).1.styleSheet
      = some (appendRules (sheetOf host w)
          [ruleText (className (w.styleCounter + 1)) write.2]) ∧
    (setAttribute host w write.1 "style" (.str write.2)).1.headStyles
      = w.headStyles + (if w.styleSheet.isSome then 0 else 1) ∧
    className (w.styleCounter + 1)
      ∈ (setAttribute host w write.1 "style" (.str write.2)).1.classList write.1 ∧
    (∀ el c, c ∈ w.classList el →
      c ∈ (setAttribute host w write.1 "style" (.str write.2)).1.classList el) := by
  obtain ⟨hnb, e, he, hpol⟩ := hfb
  obtain ⟨c1, c2, c3, c4, c5⟩ := convert_fields host w (some write.1) write.2
  have hrun : (setAttribute host w write.1 "style" (.str write.2)) =
      originalSetAttribute host
        (classListAdd (convertInlineStyleToClass host w (some write.1) write.2).1 write.1
          (convertInlineStyleToClass host w (some write.1) write.2).2)
        write.1 "data-original-style" (.str write.2) := by
    simp [setAttribute, hnb, he, hpol]
  rw [hrun]
  obtain ⟨o1, o2, o3, o4⟩ := originalSetAttribute_fields host
    (classListAdd (convertInlineStyleToClass host w (some write.1) write.2).1 write.1
      (convertInlineStyleToClass host w (some write.1) write.2).2)
    write.1 "data-original-style" (.str write.2)
  obtain ⟨a1, a2, a3⟩ := classListAdd_fields
    (convertInlineStyleToClass host w (some write.1) write.2).1 write.1
    (convertInlineStyleToClass host w (some write.1) write.2).2
  refine ⟨by rw [o1, a1, c2], by rw [o2, a2, c3], by rw [o3, a3, c4], ?_, ?_⟩
  · rw [o4, ← c1]
    exact classListAdd_mem _ _ _
  · intro el c hc
    rw [o4]
    apply classListAdd_mono
    rw [c5]
    exact hc

theorem sheetOf_of_some (host : DomHost) (w : World) (sheet : StyleSheet)
    (h : w.styleSheet = some sheet) : sheetOf host w = sheet := by
  simp [sheetOf, h]

theorem runStyleWrites_spec (host : DomHost) :
    ∀ (ws : List (Nat × String)) (w : World), (∀ write ∈ ws, FallsBack host write) →
      (runStyleWrites host w ws).styleCounter = w.styleCounter + ws.length ∧
      sheetOf host (runStyleWrites host w ws)
        = appendRules (sheetOf host w) (expectedRules (w.styleCounter + 1) ws) ∧
      (ws ≠ [] ∨ w.styleSheet.isSome = true →
        (runStyleWrites host w ws).styleSheet.isSome = true) ∧
      (runStyleWrites host w ws).headStyles
        = w.headStyles + (if w.styleSheet.isSome = true ∨ ws = [] then 0 else 1) ∧
      (∀ el c, c ∈ w.classList el → c ∈ (runStyleWrites host w ws).classList el) ∧
      (∀ i (hi : i < ws.length), className (w.styleCounter + 1 + i)
        ∈ (runStyleWrites host w ws).classList (ws.get ⟨i, hi⟩).1) := by
  intro ws
  induction ws with
  | nil =>
    intro w _
    refine ⟨rfl, ?_, ?_, ?_, ?_, ?_⟩
    · simp [runStyleWrites, expectedRules, appendRules_nil]
    · rintro (h | h)
      · exact absurd rfl h
      · exact h
    · simp [runStyleWrites]
    · intro el c hc; exact hc
    · intro i hi; simp at hi
  | cons write rest ih =>
    intro w hfb
    obtain ⟨s1, s2, s3, s4, s5⟩ :=
      setAttribute_fallback_step host w write (hfb write (List.mem_cons_self _ _))
    obtain ⟨r1, r2, r3, r4, r5, r6⟩ :=
      ih (setAttribute host w write.1 "style" (.str write.2)).1
        (fun x hx => hfb x (List.mem_cons_of_mem _ hx))
    have hsome : (setAttribute host w write.1 "style" (.str write.2)).1.styleSheet.isSome
        = true := by rw [s2]; rfl
    simp only [runStyleWrites]
    refine ⟨?_, ?_, ?_, ?_, ?_, ?_⟩
    · rw [r1, s1, List.length_cons]; omega
    · rw [r2, sheetOf_of_some host _ _ s2, s1, appendRules_cons]
      rfl
    · intro _
      exact r3 (Or.inr hsome)
    · rw [r4, s3]
      simp [hsome]
    · intro el c hc
      exact r5 el c (s5 el c hc)
    · intro i hi
      cases i with
      | zero => exact r5 _ _ s4
      | succ j =>
        have hj : j < rest.length := by simpa using hi
        have := r6 j hj
        rw [s1] at this
        have harith : w.styleCounter + 1 + (j + 1) = w.styleCounter + 1 + 1 + j := by omega
        rw [harith]
        simpa using this

theorem expectedRules_length (first : Nat) (ws : List (Nat × String)) :
    (expectedRules first ws).length = ws.length := by
  induction ws generalizing first with
  | nil => rfl
  | cons w rest ih => simp [expectedRules, ih]

theorem expectedRules_get (ws : List (Nat × String)) :
    ∀ (first i : Nat) (hi : i < ws.length),
      (expectedRules first ws)[i]? =
        some ("." ++ ("ng-quill-csp-style-" ++ toString (first + i)) ++ " \x7b " ++
          (ws.get ⟨i, hi⟩).2 ++ " \x7d") := by
  induction ws with
  | nil => intro first i hi; simp at hi
  | cons w rest ih =>
    intro first i hi
    cases i with
    | zero => simp [expectedRules]
    | succ j =>
      have hj : j < rest.length := by simpa using hi
      have := ih (first + 1) j hj
      have harith : first + (j + 1) = first + 1 + j := by omega
      simp only [expectedRules, List.getElem?_cons_succ, harith]
      simpa using this

/-- C7: for every sequence of style-attribute writes that all fall back because of
a policy violation, started on a fresh page: the counter ends at the number of
writes; the managed stylesheet is created once (exactly one `<style>` element is
appended to the head) and holds nothing but the specified rules, appended one after
the other (as text nodes, or in `cssText` on a legacy sheet); the i-th rule (counting
from 1) is the text `.ng-quill-csp-style-i { <style text> }` with the i-th style text
unmodified; the class `ng-quill-csp-style-i` is in the class list of the i-th target;
and different numbers give different class names, so two identical writes on one
element yield two distinct classes, each with its own rule. -/
theorem style_attribute_fallback_allocates (host : DomHost) (ws : List (Nat × String))
    (hfb : ∀ write ∈ ws, FallsBack host write) :
    (runStyleWrites host {} ws).styleCounter = ws.length ∧
    (runStyleWrites host {} ws).headStyles ≤ 1 ∧
    (ws ≠ [] →
      (runStyleWrites host {} ws).headStyles = 1 ∧
      (host.legacySheet = false →
        (runStyleWrites host {} ws).styleSheet
          = some { legacy := false, cssText := "", textNodes := expectedRules 1 ws }) ∧
      (host.legacySheet = true →
        (runStyleWrites host {} ws).styleSheet
          = some { legacy := true, cssText := String.join (expectedRules 1 ws),
                   textNodes := [] })) ∧
    (expectedRules 1 ws).length = ws.length ∧
    (∀ i (hi : i < ws.length),
      (expectedRules 1 ws)[i]? =
        some ("." ++ ("ng-quill-csp-style-" ++ toString (i + 1)) ++ " \x7b " ++
          (ws.get ⟨i, hi⟩).2 ++ " \x7d") ∧
      ("ng-quill-csp-style-" ++ toString (i + 1))
        ∈ (runStyleWrites host {} ws).classList (ws.get ⟨i, hi⟩).1) ∧
    (∀ i j : Nat, i ≠ j →
      "ng-quill-csp-style-" ++ toString i ≠ "ng-quill-csp-style-" ++ toString j) := by
  obtain ⟨r1, r2, r3, r4, _, r6⟩ := runStyleWrites_spec host ws {} hfb
  refine ⟨by simpa using r1, ?_, ?_, expectedRules_length 1 ws, ?_, ?_⟩
  · rw [r4]
    split <;> simp
  · intro hne
    have hsome := r3 (Or.inl hne)
    have hsheet : (runStyleWrites host {} ws).styleSheet
        = some (appendRules { legacy := host.legacySheet } (expectedRules 1 ws)) := by
      cases hs : (runStyleWrites host {} ws).styleSheet with
      | none => rw [hs] at hsome; cases hsome
      | some sheet =>
        have := sheetOf_of_some host _ _ hs
        rw [r2] at this
        rw [← this]
        rfl
    refine ⟨?_, ?_, ?_⟩
    · rw [r4]
      simp [hne]
    · intro hl
      rw [hsheet]
      simp [appendRules, hl]
    · intro hl
      rw [hsheet]
      simp [appendRules, hl]
  · intro i hi
    refine ⟨?_, ?_⟩
    · have := expectedRules_get ws 1 i hi
      rw [Nat.add_comm 1 i] at this
      exact this
    · have := r6 i hi
      have harith : ({} : World).styleCounter + 1 + i = i + 1 := by
        show 0 + 1 + i = i + 1
        omega
      rw [harith] at this
      exact this
  · intro i j hij h
    exact hij (className_injective i j h)

/-- C7 witness: the same style text written twice to element 7 under a policy that
rejects inline styles. -/
theorem style_attribute_fallback_allocates_witness :
    (runStyleWrites strictHost {} [(7, "color: red;"), (7, "color: red;")]).styleSheet
      = some { legacy := false, cssText := "",
               textNodes := expectedRules 1 [(7, "color: red;"), (7, "color: red;")] } :=
  ((style_attribute_fallback_allocates strictHost [(7, "color: red;"), (7, "color: red;")]
    (by
      intro write hw
      simp only [List.mem_cons, List.mem_singleton, List.mem_nil_iff, or_false, or_self] at hw
      subst hw
      exact ⟨by decide, securityError, rfl, rfl⟩)).2.2.1 (by simp)).2.1 rfl

/-- A concrete run for C7: two identical writes give two classes and two rules. -/
theorem style_attribute_fallback_example :
    (runStyleWrites strictHost {} [(7, "color: red;"), (7, "color: red;")]).classList 7
      = ["ng-quill-csp-style-1", "ng-quill-csp-style-2"] ∧
    (runStyleWrites strictHost {} [(7, "color: red;"), (7, "color: red;")]).styleSheet
      = some { legacy := false,
               textNodes := [".ng-quill-csp-style-1 \x7b color: red; \x7d",
                             ".ng-quill-csp-style-2 \x7b color: red; \x7d"] } ∧
    (runStyleWrites strictHost {} [(7, "color: red;"), (7, "color: red;")]).headStyles = 1 := by
  decide


/-! ## C8: the four wrapped write paths under a policy violation -/

/-- C8 (the code at the failing input): under a policy that rejects inline styles,
`setProperty('color', 'red')` on the style declaration of element 7 allocates class
number 1 and then raises a `TypeError`, because `this.classList` is read from the
declaration; the class is not added to element 7. The `cssText` setter returns
normally but, the declaration having no `parentElement`, adds the class to no
element either. -/
theorem setProperty_fallback_raises :
    isPolicyViolation securityError = .ok true ∧
    (setProperty strictHost {} (plainDecl 7) "color" "red" none).2
      = some (typeError "add") ∧
    (setProperty strictHost {} (plainDecl 7) "color" "red" none).1.styleCounter = 1 ∧
    (setProperty strictHost {} (plainDecl 7) "color" "red" none).1.classList 7 = [] ∧
    (cssTextSetter strictHost {} (plainDecl 7) "color: red;").2 = none ∧
    (cssTextSetter strictHost {} (plainDecl 7) "color: red;").1.styleCounter = 1 ∧
    (cssTextSetter strictHost {} (plainDecl 7) "color: red;").1.classList 7 = [] :=
  ⟨rfl, by decide, by decide, by decide, by decide, by decide, by decide⟩

/-- On every document, `setProperty` on a declaration without a `classList` property
raises a `TypeError` when the original write is a policy violation, and leaves every
class list as it was. -/
theorem setProperty_without_classList (host : DomHost) (w : World) (this : StyleDecl)
    (property value : String) (priority : Option String) (e : Thrown)
    (hthrow : host.setPropertyThrows this property value priority = some e)
    (hpol : isPolicyViolation e = .ok true) (hno : this.classListOf = none) :
    (setProperty host w this property value priority).2 = some (typeError "add") ∧
    (setProperty host w this property value priority).1.classList = w.classList := by
  refine ⟨by simp [setProperty, hthrow, hpol, hno], ?_⟩
  simp only [setProperty, hthrow, hpol, hno]
  exact (convert_fields host w none _).2.2.2.2

/-- The style-attribute path does what C8 says: under a policy violation, and when
the write of `data-original-style` goes through, the wrapper returns normally and the
new class is in the target's class list. -/
theorem setAttribute_fallback_returns (host : DomHost) (w : World) (write : Nat × String)
    (hfb : FallsBack host write)
    (hdata : host.setAttributeThrows write.1 "data-original-style" (.str write.2) = none) :
    (setAttribute host w write.1 "style" (.str write.2)).2 = none ∧
    className (w.styleCounter + 1)
      ∈ (setAttribute host w write.1 "style" (.str write.2)).1.classList write.1 := by
  refine ⟨?_, (setAttribute_fallback_step host w write hfb).2.2.2.1⟩
  obtain ⟨hnb, e, he, hpol⟩ := hfb
  simp [setAttribute, hnb, he, hpol, originalSetAttribute, hdata]

/-- The style-property path does what C8 says: under a policy violation with a
non-blank style text the setter returns normally and the new class is in the
element's class list. -/
theorem styleSetter_fallback_returns (host : DomHost) (w : World) (element : Nat)
    (value : JSVal) (e : Thrown) (hthrow : host.styleSetThrows element value = some e)
    (hpol : isPolicyViolation e = .ok true)
    (hnb : nonBlank (styleStringOf host value) = true) :
    (styleSetter host w element value).2 = none ∧
    className (w.styleCounter + 1) ∈ (styleSetter host w element value).1.classList element := by
  refine ⟨by simp [styleSetter, hthrow, hpol, hnb], ?_⟩
  simp only [styleSetter, hthrow, hpol, hnb, if_true]
  rw [← (convert_fields host w (some element) (styleStringOf host value)).1]
  exact classListAdd_mem _ _ _

/-! ## C9: errors that are not policy violations -/

/-- C9 (the code at the failing input): the original write throws an object with the
name `QuotaError` and no `message`; it is not a policy violation, yet the style
attribute wrapper and the style setter raise a `TypeError` (from reading
`e.message.includes`) instead of the thrown object. -/
theorem wrapper_raises_type_error_without_message :
    faultyHost.setAttributeThrows 7 "style" (.str "color: red;") = some bareError ∧
    (setAttribute faultyHost {} 7 "style" (.str "color: red;")).2
      = some (typeError "includes") ∧
    (setAttribute faultyHost {} 7 "style" (.str "color: red;")).2 ≠ some bareError ∧
    (styleSetter faultyHost {} 7 (.str "color: red;")).2 = some (typeError "includes") ∧
    (styleSetter faultyHost {} 7 (.str "color: red;")).2 ≠ some bareError := by
  decide

/-- When the thrown value has a `message`, C9 holds on all four paths: a value whose
name is not `SecurityError` and whose message does not mention the policy is raised
as it is, and nothing is allocated or changed. -/
theorem wrapper_rethrows_with_message (host : DomHost) (w : World) (element : Nat)
    (this : StyleDecl) (text property value : String) (priority : Option String)
    (styleValue : JSVal) (name : Option String) (message : String)
    (hname : name ≠ some "SecurityError")
    (hmsg : includes message "Content Security Policy" = false) :
    (host.setAttributeThrows element "style" (.str text) = some (.value name (some message)) →
      setAttribute host w element "style" (.str text)
        = (w, some (.value name (some message)))) ∧
    (host.styleSetThrows element styleValue = some (.value name (some message)) →
      styleSetter host w element styleValue = (w, some (.value name (some message)))) ∧
    (host.setPropertyThrows this property value priority
        = some (.value name (some message)) →
      setProperty host w this property value priority
        = (w, some (.value name (some message)))) ∧
    (host.cssTextThrows this text = some (.value name (some message)) →
      cssTextSetter host w this text = (w, some (.value name (some message)))) := by
  have hpol : isPolicyViolation (.value name (some message)) = .ok false := by
    simp [isPolicyViolation, hname, hmsg]
  refine ⟨?_, ?_, ?_, ?_⟩
  · intro h
    by_cases hnb : nonBlank text = true
    · simp [setAttribute, hnb, h, hpol]
    · simp [setAttribute, hnb, originalSetAttribute, h]
  · intro h
    simp [styleSetter, h, hpol]
  · intro h
    simp [setProperty, h, hpol]
  · intro h
    simp [cssTextSetter, h, hpol]

/-! ## C10: insertion events from one batch of mutation records -/

theorem forEachNode_eq (type : String) (container : DomNode) (nodes : List DomNode) :
    ∀ calls : List Invocation,
      forEachNode type container nodes calls = calls ++
        (nodes.filter
          (fun node => node.nodeType = ELEMENT_NODE ∨ node.nodeType = TEXT_NODE)).map
          (fun node =>
            { thisArg := node,
              event := { type := type, target := node, relatedNode := .val container,
                         attrName := .undefined, attrChange := .undefined } }) := by
  unfold forEachNode
  induction nodes with
  | nil => intro calls; simp
  | cons node rest ih =>
    intro calls
    simp only [List.foldl_cons]
    rw [ih]
    by_cases hk : node.nodeType = ELEMENT_NODE ∨ node.nodeType = TEXT_NODE
    · have hb : (node.nodeType == ELEMENT_NODE || node.nodeType == TEXT_NODE) = true := by
        simpa using hk
      simp [hb, hk, createMutationEvent, List.filter_cons]
    · have hb : (node.nodeType == ELEMENT_NODE || node.nodeType == TEXT_NODE) = false := by
        simpa using hk
      simp only [not_or] at hk
      simp [hb, hk, List.filter_cons]

theorem foldl_onMutation_inserted (mutations : List MutationRecord) :
    ∀ calls : List Invocation,
      mutations.foldl (onMutation "DOMNodeInserted") calls
        = calls ++ insertionCalls mutations := by
  induction mutations with
  | nil => intro calls; simp [insertionCalls]
  | cons m rest ih =>
    intro calls
    simp only [List.foldl_cons]
    rw [ih]
    have hstep : onMutation "DOMNodeInserted" calls m
        = calls ++ insertionCalls [m] := by
      simp only [onMutation, insertionCalls, List.flatMap_cons, List.flatMap_nil,
        List.append_nil]
      by_cases hty : m.type = .childList
      · cases hn : m.addedNodes with
        | nil => simp [hty, hn]
        | cons n ns =>
          rw [← hn]
          have hlen : m.addedNodes.length > 0 := by rw [hn]; simp
          simp [hty, hlen, forEachNode_eq]
      · simp [hty]
    rw [hstep]
    simp [insertionCalls, List.flatMap_cons, List.append_assoc]

theorem insertionCalls_length (mutations : List MutationRecord) :
    (insertionCalls mutations).length
      = ((mutations.filter (fun m => m.type = .childList)).map
          (fun m => (m.addedNodes.filter
            (fun node => node.nodeType = ELEMENT_NODE ∨ node.nodeType = TEXT_NODE)).length)).sum := by
  induction mutations with
  | nil => rfl
  | cons m rest ih =>
    have hcons : insertionCalls (m :: rest) = insertionCalls [m] ++ insertionCalls rest := by
      simp [insertionCalls, List.flatMap_cons]
    rw [hcons, List.length_append, ih]
    by_cases hty : m.type = .childList
    · simp [insertionCalls, hty, List.filter_cons]
    · simp [insertionCalls, hty, List.filter_cons]

/-- C10: for a listener registered for `DOMNodeInserted`, the observer callback on
any batch of mutation records calls the listener exactly once for each added node of
element or text kind of each child-list record, in record order and node order, with
the node as `this` and an event of type `DOMNodeInserted` whose target is the node
and whose `relatedNode` is the record's target; nodes of another kind and records of
another kind cause no call, so the number of calls is the number of such nodes. -/
theorem observerCallback_inserted (mutations : List MutationRecord) :
    observerCallback "DOMNodeInserted" mutations = insertionCalls mutations ∧
    (observerCallback "DOMNodeInserted" mutations).length
      = ((mutations.filter (fun m => m.type = .childList)).map
          (fun m => (m.addedNodes.filter
            (fun node => node.nodeType = ELEMENT_NODE ∨ node.nodeType = TEXT_NODE)).length)).sum := by
  have h : observerCallback "DOMNodeInserted" mutations = insertionCalls mutations := by
    unfold observerCallback
    rw [foldl_onMutation_inserted]
    simp
  exact ⟨h, by rw [h]; exact insertionCalls_length mutations⟩

/-- A concrete batch for C10: two element nodes, a comment node and a text node
inserted under container 1, and an attribute record: three calls, one per element or
text node, in order. -/
theorem observerCallback_inserted_example :
    observerCallback "DOMNodeInserted"
      [{ type := .childList, target := ⟨1, 1⟩, addedNodes := [⟨2, 1⟩, ⟨3, 8⟩, ⟨4, 3⟩] },
       { type := .attributes, target := ⟨1, 1⟩, attributeName := some "class" },
       { type := .childList, target := ⟨1, 1⟩, addedNodes := [⟨5, 1⟩] }]
      = [⟨⟨2, 1⟩, ⟨"DOMNodeInserted", ⟨2, 1⟩, .val ⟨1, 1⟩, .undefined, .undefined⟩⟩,
         ⟨⟨4, 3⟩, ⟨"DOMNodeInserted", ⟨4, 3⟩, .val ⟨1, 1⟩, .undefined, .undefined⟩⟩,
         ⟨⟨5, 1⟩, ⟨"DOMNodeInserted", ⟨5, 1⟩, .val ⟨1, 1⟩, .undefined, .undefined⟩⟩] := by
  decide

/-- The case of two nodes inserted under one container in one batch: exactly two
calls, one per node, each with that node as target. -/
theorem observerCallback_two_nodes_example :
    observerCallback "DOMNodeInserted"
      [{ type := .childList, target := ⟨1, 1⟩, addedNodes := [⟨2, 1⟩, ⟨3, 1⟩] }]
      = [⟨⟨2, 1⟩, ⟨"DOMNodeInserted", ⟨2, 1⟩, .val ⟨1, 1⟩, .undefined, .undefined⟩⟩,
         ⟨⟨3, 1⟩, ⟨"DOMNodeInserted", ⟨3, 1⟩, .val ⟨1, 1⟩, .undefined, .undefined⟩⟩] := by
  decide


/-! ## C12: blur, focus and selection-changed -/

/-- C12 (as stated, refuted): a notification with no selection now and none before
(`range` and `oldRange` both `null`) signals blur, although there was no selection to
lose. -/
theorem selectionChange_blur_without_previous_selection :
    (selectionChangeHandler allCallbacks none none .user).1
      = [.onBlur .user, .onSelectionChanged .null .null .user] :=
  rfl

/-- C12 (amended): for every selection-change notification with all three callbacks
registered: blur is signalled, with the notification's source, if and only if there
is no selection now (`range` is `null`), whatever `oldRange` is; focus is signalled
if and only if there is a selection now after having none; blur and focus are never
both signalled; and selection-changed is reported exactly once with the same
`oldRange`, `range` and source. -/
theorem selectionChange_signals (c : Ctrl) (range oldRange : Option Range) (source : Source)
    (hb : c.onBlur = true) (hf : c.onFocus = true) (hs : c.onSelectionChanged = true) :
    (∀ s, Effect.onBlur s ∈ (selectionChangeHandler c range oldRange source).1
      ↔ (range = none ∧ s = source)) ∧
    (∀ s, Effect.onFocus s ∈ (selectionChangeHandler c range oldRange source).1
      ↔ (range ≠ none ∧ oldRange = none ∧ s = source)) ∧
    ¬(∃ s s', Effect.onBlur s ∈ (selectionChangeHandler c range oldRange source).1 ∧
        Effect.onFocus s' ∈ (selectionChangeHandler c range oldRange source).1) ∧
    (selectionChangeHandler c range oldRange source).1.filter Effect.isSelectionChanged
      = [.onSelectionChanged (rangeValue oldRange) (rangeValue range) source] := by
  cases range <;> cases oldRange <;>
    simp [selectionChangeHandler, hb, hf, hs, Effect.isSelectionChanged]

/-- C12 witness: the caret is placed in an editor that had no selection. -/
theorem selectionChange_signals_witness :
    Effect.onFocus .user ∈ (selectionChangeHandler allCallbacks (some ⟨0, 0⟩) none .user).1 :=
  ((selectionChange_signals allCallbacks (some ⟨0, 0⟩) none .user rfl rfl rfl).2.1 .user).2
    ⟨by simp, rfl, rfl⟩

/-! ## C13: after destruction -/

theorem onChanges_without_editor (c : Ctrl) (h : Host) (cl : Closure) (changes : Changes)
    (hed : cl.editor = false) :
    (onChanges c h cl changes).2 = [] ∧ (onChanges c h cl changes).1.editor = false := by
  cases hm : changes.ngModel <;> cases hr : changes.readOnly <;>
    cases hp : changes.placeholder <;> cases hc : changes.classes <;>
    simp [onChanges, hm, hr, hp, hc, hed]

theorem runChanges_without_editor (c : Ctrl) (h : Host) (pushes : List Changes) :
    ∀ cl : Closure, cl.editor = false →
      (runChanges c h cl pushes).2 = [] ∧ (runChanges c h cl pushes).1.editor = false := by
  induction pushes with
  | nil => intro cl hed; exact ⟨rfl, hed⟩
  | cons changes rest ih =>
    intro cl hed
    obtain ⟨h1, h2⟩ := onChanges_without_editor c h cl changes hed
    obtain ⟨h3, h4⟩ := ih (onChanges c h cl changes).1 h2
    simp only [runChanges]
    exact ⟨by rw [h1, h3]; rfl, h4⟩

theorem initEditor_registers (c : Ctrl) (h : Host) (cl : Closure)
    (r : Closure × List Effect) (hok : _initEditor c h cl = .ok r) :
    r.1.textChangeEvent = true ∧ r.1.selectionChangeEvent = true ∧ r.1.editor = true := by
  unfold _initEditor at hok
  cases hq : h.quillError with
  | some message => simp [hq] at hok
  | none =>
    simp only [hq] at hok
    injection hok with hok
    subst hok
    exact ⟨rfl, rfl, rfl⟩

theorem onChanges_keeps_handles (c : Ctrl) (h : Host) (cl : Closure) (changes : Changes) :
    (onChanges c h cl changes).1.textChangeEvent = cl.textChangeEvent ∧
    (onChanges c h cl changes).1.selectionChangeEvent = cl.selectionChangeEvent := by
  cases hm : changes.ngModel
  · simp [onChanges, hm]
  · simp only [onChanges, hm]
    split <;> simp

/-- C13: after `$onDestroy`, from whatever state it was called in, the editor
variable is released, and every later sequence of `$onChanges` calls, with any
`ngModel`, `readOnly`, `placeholder` or `classes` change, makes no call at all (no
`setText`, `setContents` or `enable`, no validity update) and leaves the editor
released; and for an instance that holds the two handles `_initEditor` stores, the
emitter has no handler left for `text-change` nor for `selection-change`, so no
notification of either kind reaches the component. -/
theorem onDestroy_stops_sync (c : Ctrl) (h : Host) (cl : Closure) (em : Emitter)
    (pushes : List Changes)
    (hreg : cl.textChangeEvent = true ∧ cl.selectionChangeEvent = true) :
    (onDestroy cl em).1.editor = false ∧
    (runChanges c h (onDestroy cl em).1 pushes).2 = [] ∧
    (runChanges c h (onDestroy cl em).1 pushes).1.editor = false ∧
    (onDestroy cl em).2.handlers "text-change" = [] ∧
    (onDestroy cl em).2.handlers "selection-change" = [] := by
  obtain ⟨ht, hs⟩ := hreg
  have hed : (onDestroy cl em).1.editor = false := rfl
  obtain ⟨h1, h2⟩ := runChanges_without_editor c h pushes (onDestroy cl em).1 hed
  refine ⟨hed, h1, h2, ?_, ?_⟩
  · simp [onDestroy, ht, hs, Emitter.removeListener, Function.update]
  · simp [onDestroy, ht, hs, Emitter.removeListener, Function.update]

/-- Before initialisation too, `$onDestroy` followed by any `$onChanges` calls makes
no call. -/
theorem onDestroy_stops_pushes (c : Ctrl) (h : Host) (cl : Closure) (em : Emitter)
    (pushes : List Changes) :
    (runChanges c h (onDestroy cl em).1 pushes).2 = [] :=
  (runChanges_without_editor c h pushes (onDestroy cl em).1 rfl).1

/-- C13 witness: an initialised instance with both handlers registered is destroyed
and then receives a model change and a read-only change. -/
theorem onDestroy_stops_sync_witness :
    (runChanges {} sampleHost
        (onDestroy { editorElem := true, editor := true, selectionChangeEvent := true,
                     textChangeEvent := true } (registerHandlers {} 0 1)).1
        [{ ngModel := some (.str "late") }, { readOnly := some (.bool true) }]).2 = [] ∧
    (onDestroy { editorElem := true, editor := true, selectionChangeEvent := true,
                 textChangeEvent := true } (registerHandlers {} 0 1)).2.handlers "text-change"
      = [] :=
  ⟨(onDestroy_stops_sync {} sampleHost
      { editorElem := true, editor := true, selectionChangeEvent := true,
        textChangeEvent := true } (registerHandlers {} 0 1)
      [{ ngModel := some (.str "late") }, { readOnly := some (.bool true) }]
      ⟨rfl, rfl⟩).2.1,
   (onDestroy_stops_sync {} sampleHost
      { editorElem := true, editor := true, selectionChangeEvent := true,
        textChangeEvent := true } (registerHandlers {} 0 1)
      [{ ngModel := some (.str "late") }, { readOnly := some (.bool true) }]
      ⟨rfl, rfl⟩).2.2.2.1⟩

/-! ## C14: an outward push of an unchanged value -/

/-- C14 (the code at the failing input): format `html`, change tracking `all`, the
control's current view value `<p>a</p>`, and a notification with source `api` whose
markup is the same `<p>a</p>` (as the editor sends after that value was applied to
it): the push computes the unchanged value and leaves the flag `editorChanged` set,
and the next external value `<p>b</p>` is not applied to the editor. The same
happens with format `json` when the encoded contents equal the current view value. -/
theorem applyAsync_unchanged_value_keeps_flag :
    outwardValue sampleHost (configuredFormat { format := some "html" })
        { html := .str "<p>a</p>", text := "a\n", content := .arr [], delta := .arr [],
          oldDelta := .arr [], source := .api }
      = .str "<p>a</p>" ∧
    (applyAsyncCallback { format := some "html", trackChanges := some "all" } {} sampleHost
        { format := "html", editor := true, viewValue := .str "<p>a</p>" }
        { html := .str "<p>a</p>", text := "a\n", content := .arr [], delta := .arr [],
          oldDelta := .arr [], source := .api }).1.editorChanged = true ∧
    (onChanges { format := some "html", trackChanges := some "all" } sampleHost
        (applyAsyncCallback { format := some "html", trackChanges := some "all" } {}
          sampleHost
          { format := "html", editor := true, viewValue := .str "<p>a</p>" }
          { html := .str "<p>a</p>", text := "a\n", content := .arr [], delta := .arr [],
            oldDelta := .arr [], source := .api }).1
        { ngModel := some (.str "<p>b</p>") }).2 = [] ∧
    outwardValue sampleHost (configuredFormat { format := some "json" })
        { html := .str "<p>a</p>", text := "a\n", content := .arr [], delta := .arr [],
          oldDelta := .arr [], source := .user }
      = .str "[]" ∧
    (applyAsyncCallback { format := some "json" } {} sampleHost
        { format := "json", editor := true, viewValue := .str "[]" }
        { html := .str "<p>a</p>", text := "a\n", content := .arr [], delta := .arr [],
          oldDelta := .arr [], source := .user }).1.editorChanged = true :=
  ⟨rfl, rfl, rfl, rfl, rfl⟩

/-- On every host and for every value, pushed or not changed: when the format in
force is not `text`, a notification that is pushed outward leaves the flag set. -/
theorem applyAsync_other_formats_keep_flag (c : Ctrl) (cfg : ProviderConfig) (h : Host)
    (cl : Closure) (ev : ChangeEvent) (hfmt : cl.format = configuredFormat c)
    (htext : cl.format ≠ "text") (hpush : pushesOutward c cfg ev.source = true) :
    (applyAsyncCallback c cfg h cl ev).1.editorChanged = true := by
  have hn : ¬(cl.format = "text" ∧ cl.viewValue = .str ev.text) := fun hh => htext hh.1
  simp [applyAsyncCallback, hpush, (pushBranch_spec c h cl ev hfmt).2 hn]

/-- With the format `text`, a pushed notification whose text is the control's current
view value leaves the flag clear, and the next external value is applied. -/
theorem applyAsync_text_unchanged_clears_flag (c : Ctrl) (cfg : ProviderConfig) (h : Host)
    (cl : Closure) (ev : ChangeEvent) (hfmt : cl.format = configuredFormat c)
    (htext : cl.format = "text") (hsame : cl.viewValue = .str ev.text)
    (hpush : pushesOutward c cfg ev.source = true) :
    (applyAsyncCallback c cfg h cl ev).1.editorChanged = false := by
  simp [applyAsyncCallback, hpush, (pushBranch_spec c h cl ev hfmt).1 ⟨htext, hsame⟩]

/-! ## C11 and C15: the registry of observers -/

theorem removeLoop_eq (listener : Nat) (entries : List ObserverEntry) (live : List Observer) :
    removeLoop listener entries live =
      (entries.filter (fun e => e.listener != listener),
       live.filter (fun o =>
         !(entries.any (fun e => e.listener == listener && e.observer.id == o.id)))) := by
  unfold removeLoop
  induction entries with
  | nil => simp
  | cons e rest ih =>
    simp only [List.foldr_cons, ih]
    by_cases hl : e.listener = listener
    · simp only [hl, beq_self_eq_true, if_true, List.filter_filter]
      refine Prod.ext ?_ ?_
      · simp [List.filter_cons, hl]
      · simp only
        apply List.filter_congr
        intro o _
        by_cases hid : e.observer.id = o.id
        · simp [List.any_cons, hl, hid]
        · have hid2 : (o.id != e.observer.id) = true := by
            simpa [bne_iff_ne] using fun hh : o.id = e.observer.id => hid hh.symm
          have hid3 : (e.observer.id == o.id) = false := by simpa using hid
          simp only [List.any_cons, hl, beq_self_eq_true, Bool.true_and, hid2, hid3,
            Bool.false_or]
    · have hb : (e.listener == listener) = false := by simpa using hl
      simp only [hb, Bool.false_eq_true, if_false]
      refine Prod.ext ?_ ?_
      · simp [List.filter_cons, hl]
      · simp [List.any_cons, hb]

theorem addEventListener_legacy (r : Registry) (target : Nat) (type : String) (listener : Nat)
    (hleg : isLegacy type = true) (hnode : r.isNode target = true) :
    addEventListener r target type listener =
      ({ r with
         observers := Function.update r.observers target
           (some ((r.observers target).getD [] ++
             [{ observer := { id := r.made, target := target, type := type,
                              listener := listener },
                listener := listener }])),
         live := r.live ++
           [{ id := r.made, target := target, type := type, listener := listener }],
         made := r.made + 1 }, none) := by
  unfold addEventListener
  cases ho : r.observers target with
  | none => simp [hleg, hnode, ho]
  | some entries => simp [hleg, hnode, ho]

theorem addEventListener_not_node (r : Registry) (target : Nat) (type : String)
    (listener : Nat) (hleg : isLegacy type = true) (hnode : r.isNode target = false) :
    addEventListener r target type listener =
      ({ r with
         observers := Function.update r.observers target
           (some ((r.observers target).getD [])),
         made := r.made + 1 }, some observeError) := by
  unfold addEventListener
  cases ho : r.observers target with
  | none => simp [hleg, hnode, ho]
  | some entries =>
    have hupd : Function.update r.observers target (some entries) = r.observers := by
      rw [← ho]; exact Function.update_eq_self target r.observers
    simp [hleg, hnode, ho, hupd]

theorem removeEventListener_legacy (r : Registry) (target : Nat) (type : String)
    (listener : Nat) (entries : List ObserverEntry) (hleg : isLegacy type = true)
    (ho : r.observers target = some entries) :
    removeEventListener r target type listener =
      { r with
        observers := Function.update r.observers target
          (if entries.filter (fun e => e.listener != listener) = [] then none
           else some (entries.filter (fun e => e.listener != listener))),
        live := r.live.filter (fun o =>
          !(entries.any (fun e => e.listener == listener && e.observer.id == o.id))) } := by
  unfold removeEventListener
  simp only [hleg, if_true, ho, removeLoop_eq]
  by_cases hk : entries.filter (fun e => e.listener != listener) = []
  · simp [hk]
  · have hlen : ¬ (entries.filter (fun e => e.listener != listener)).length = 0 := by
      intro h0
      exact hk (List.length_eq_zero.1 h0)
    simp [hk, hlen]

theorem Inv_empty (nodes : Nat → Bool) : Registry.Inv { isNode := nodes } := by
  refine ⟨?_, ?_, ?_, ?_⟩
  · intro o ho; simp at ho
  · simp
  · intro t; simp
  · intro t l h; simp at h

theorem addEventListener_isNode (r : Registry) (target : Nat) (type : String)
    (listener : Nat) : (addEventListener r target type listener).1.isNode = r.isNode := by
  unfold addEventListener
  cases hleg : isLegacy type <;> cases hnode : r.isNode target <;> simp [hleg, hnode]

theorem removeEventListener_isNode (r : Registry) (target : Nat) (type : String)
    (listener : Nat) : (removeEventListener r target type listener).isNode = r.isNode := by
  unfold removeEventListener
  cases hleg : isLegacy type <;> cases ho : r.observers target <;> simp [hleg, ho]

theorem Inv_addEventListener (r : Registry) (hinv : r.Inv) (target : Nat) (type : String)
    (listener : Nat) : (addEventListener r target type listener).1.Inv := by
  by_cases hleg : isLegacy type = true
  · cases hnode : r.isNode target with
    | true =>
      rw [addEventListener_legacy r target type listener hleg hnode]
      obtain ⟨h1, h2, h3, h4⟩ := hinv
      refine ⟨?_, ?_, ?_, ?_⟩
      · intro o ho
        simp only [List.mem_append, List.mem_singleton] at ho
        rcases ho with ho | ho
        · exact Nat.lt_succ_of_lt (h1 o ho)
        · subst ho; exact Nat.lt_succ_self _
      · simp only [List.map_append, List.map_cons, List.map_nil]
        rw [List.nodup_append]
        refine ⟨h2, by simp, ?_⟩
        intro a ha hb
        simp only [List.mem_singleton] at hb
        subst hb
        obtain ⟨o, ho, hoid⟩ := List.mem_map.1 ha
        have := h1 o ho
        omega
      · intro t
        by_cases ht : t = target
        · subst ht
          simp only [List.filter_append, Function.update_same, Option.getD_some,
            List.map_append, List.map_cons, List.map_nil]
          rw [h3 t]
          simp
        · have hne : (target == t) = false := by
            simpa using fun hh : target = t => ht hh.symm
          simp only [List.filter_append, Function.update_noteq ht]
          rw [h3 t]
          simp [hne]
      · intro t l hl
        by_cases ht : t = target
        · subst ht
          simp only [Function.update_same, Option.some.injEq] at hl
          subst hl
          intro e he
          simp only [List.mem_append, List.mem_singleton] at he
          rcases he with he | he
          · cases ho : r.observers t with
            | none => simp [ho] at he
            | some entries =>
              simp only [ho, Option.getD_some] at he
              exact h4 t entries ho e he
          · subst he; rfl
        · simp only [Function.update_noteq ht] at hl
          exact h4 t l hl
    | false =>
      rw [addEventListener_not_node r target type listener hleg hnode]
      obtain ⟨h1, h2, h3, h4⟩ := hinv
      refine ⟨?_, h2, ?_, ?_⟩
      · intro o ho
        exact Nat.lt_succ_of_lt (h1 o ho)
      · intro t
        by_cases ht : t = target
        · subst ht
          simp only [Function.update_same, Option.getD_some]
          exact h3 t
        · simp only [Function.update_noteq ht]
          exact h3 t
      · intro t l hl
        by_cases ht : t = target
        · subst ht
          simp only [Function.update_same, Option.some.injEq] at hl
          subst hl
          intro e he
          cases ho : r.observers t with
          | none => simp [ho] at he
          | some entries =>
            simp only [ho, Option.getD_some] at he
            exact h4 t entries ho e he
        · simp only [Function.update_noteq ht] at hl
          exact h4 t l hl
  · have hb : isLegacy type = false := by simpa using hleg
    obtain ⟨h1, h2, h3, h4⟩ := hinv
    unfold addEventListener
    simp only [hb, Bool.false_eq_true, if_false]
    exact ⟨h1, h2, h3, h4⟩

theorem Inv_entry_live (r : Registry) (hinv : r.Inv) (t : Nat) (entries : List ObserverEntry)
    (ho : r.observers t = some entries) (e : ObserverEntry) (he : e ∈ entries) :
    e.observer ∈ r.live ∧ e.observer.target = t := by
  have h3 := hinv.2.2.1 t
  rw [ho, Option.getD_some] at h3
  have hm : e.observer ∈ entries.map ObserverEntry.observer := List.mem_map_of_mem _ he
  rw [← h3] at hm
  have := List.mem_filter.1 hm
  exact ⟨this.1, by simpa using this.2⟩

theorem Inv_id_injective (r : Registry) (hinv : r.Inv) (a b : Observer) (ha : a ∈ r.live)
    (hb : b ∈ r.live) (hid : a.id = b.id) : a = b :=
  List.inj_on_of_nodup_map hinv.2.1 ha hb hid

theorem Inv_removeEventListener (r : Registry) (hinv : r.Inv) (target : Nat) (type : String)
    (listener : Nat) : (removeEventListener r target type listener).Inv := by
  by_cases hleg : isLegacy type = true
  · cases ho : r.observers target with
    | none =>
      have : removeEventListener r target type listener = r := by
        unfold removeEventListener
        simp [hleg, ho]
      rw [this]
      exact hinv
    | some entries =>
      rw [removeEventListener_legacy r target type listener entries hleg ho]
      have hlive := Inv_entry_live r hinv target entries ho
      obtain ⟨h1, h2, h3, h4⟩ := hinv
      have hinj := Inv_id_injective r ⟨h1, h2, h3, h4⟩
      refine ⟨?_, ?_, ?_, ?_⟩
      · intro o hmem
        exact h1 o (List.mem_filter.1 hmem).1
      · exact ((List.filter_sublist _).map _).nodup h2
      · intro t
        by_cases ht : t = target
        · subst ht
          have hobs : ((Function.update r.observers t
              (if entries.filter (fun e => e.listener != listener) = [] then none
               else some (entries.filter (fun e => e.listener != listener)))) t).getD []
              = entries.filter (fun e => e.listener != listener) := by
            simp only [Function.update_same]
            split
            · next hk => rw [hk]; rfl
            · rfl
          simp only [hobs]
          rw [List.filter_comm, h3 t, ho, Option.getD_some, List.filter_map]
          congr 1
          apply List.filter_congr
          intro e he
          by_cases hl : e.listener = listener
          · have hany : entries.any
                (fun e' => e'.listener == listener && e'.observer.id == e.observer.id) = true :=
              List.any_eq_true.2 ⟨e, he, by simp [hl]⟩
            simp [hany, hl]
          · have hany : entries.any
                (fun e' => e'.listener == listener && e'.observer.id == e.observer.id) = false := by
              rw [Bool.eq_false_iff]
              intro hh
              obtain ⟨e', he', hp⟩ := List.any_eq_true.1 hh
              simp only [Bool.and_eq_true, beq_iff_eq] at hp
              have hobs2 := hinj e'.observer e.observer (hlive e' he').1 (hlive e he).1 hp.2
              have := h4 t entries ho e' he'
              have h5 := h4 t entries ho e he
              rw [hobs2, ← h5, hp.1] at this
              exact hl this.symm
            have hb : (e.listener != listener) = true := by simpa [bne_iff_ne] using hl
            simp [hany, hb]
        · simp only [Function.update_noteq ht]
          rw [List.filter_comm, List.filter_eq_self.2, h3 t]
          intro o hmem
          have hmem2 := List.mem_filter.1 hmem
          have htgt : o.target = t := by simpa using hmem2.2
          have hany : entries.any
              (fun e' => e'.listener == listener && e'.observer.id == o.id) = false := by
            rw [Bool.eq_false_iff]
            intro hh
            obtain ⟨e', he', hp⟩ := List.any_eq_true.1 hh
            simp only [Bool.and_eq_true, beq_iff_eq] at hp
            have hobs2 := hinj e'.observer o (hlive e' he').1 hmem2.1 hp.2
            have := (hlive e' he').2
            rw [hobs2, htgt] at this
            exact ht this
          simp [hany]
      · intro t l hl
        by_cases ht : t = target
        · subst ht
          simp only [Function.update_same] at hl
          split at hl
          · cases hl
          · next hk =>
            injection hl with hl
            subst hl
            intro e he
            exact h4 t entries ho e (List.mem_filter.1 he).1
        · simp only [Function.update_noteq ht] at hl
          exact h4 t l hl
  · have hb : isLegacy type = false := by simpa using hleg
    obtain ⟨h1, h2, h3, h4⟩ := hinv
    unfold removeEventListener
    simp only [hb, Bool.false_eq_true, if_false]
    exact ⟨h1, h2, h3, h4⟩

theorem Inv_runCalls (calls : List ListenerCall) :
    ∀ r : Registry, r.Inv → (runCalls r calls).Inv := by
  induction calls with
  | nil => intro r h; exact h
  | cons call rest ih =>
    intro r h
    simp only [runCalls, List.foldl_cons]
    apply ih
    cases call with
    | add t ty l => exact Inv_addEventListener r h t ty l
    | remove t ty l => exact Inv_removeEventListener r h t ty l

/-- What `removeEventListener` does for a legacy event name, in a state that
satisfies the invariant: the target's list loses the elements of the listener,
whatever event name they were registered under; the map entry is deleted exactly
when nothing remains; a connected observer stays connected exactly when it is not an
observer of this listener on this target; and the invariant holds again, so every
connected observer still has its element in the map. -/
theorem removeEventListener_spec (r : Registry) (hinv : r.Inv) (target : Nat)
    (type : String) (listener : Nat) (hleg : isLegacy type = true) :
    ((removeEventListener r target type listener).observers target).getD []
      = ((r.observers target).getD []).filter (fun e => e.listener != listener) ∧
    ((removeEventListener r target type listener).observers target = none ↔
      ((r.observers target).getD []).filter (fun e => e.listener != listener) = []) ∧
    (∀ o ∈ r.live, o ∈ (removeEventListener r target type listener).live ↔
      ¬(o.target = target ∧ o.listener = listener)) ∧
    (removeEventListener r target type listener).Inv := by
  refine ⟨?_, ?_, ?_, Inv_removeEventListener r hinv target type listener⟩
  · cases ho : r.observers target with
    | none =>
      have : removeEventListener r target type listener = r := by
        unfold removeEventListener
        simp [hleg, ho]
      rw [this, ho]
      rfl
    | some entries =>
      rw [removeEventListener_legacy r target type listener entries hleg ho]
      simp only [Function.update_same, Option.getD_some]
      split
      · next hk => rw [hk]; rfl
      · rfl
  · cases ho : r.observers target with
    | none =>
      have : removeEventListener r target type listener = r := by
        unfold removeEventListener
        simp [hleg, ho]
      rw [this, ho]
      simp
    | some entries =>
      rw [removeEventListener_legacy r target type listener entries hleg ho]
      simp only [Function.update_same, Option.getD_some]
      split
      · next hk => simp [hk]
      · next hk => simp [hk]
  · intro o hmem
    have h3 := hinv.2.2.1 target
    cases ho : r.observers target with
    | none =>
      have : removeEventListener r target type listener = r := by
        unfold removeEventListener
        simp [hleg, ho]
      rw [this]
      rw [ho] at h3
      simp only [Option.getD_none, List.map_nil] at h3
      constructor
      · rintro _ ⟨ht, _⟩
        have : o ∈ r.live.filter (fun o => o.target == target) :=
          List.mem_filter.2 ⟨hmem, by simpa using ht⟩
        rw [h3] at this
        simp at this
      · intro _; exact hmem
    | some entries =>
      rw [removeEventListener_legacy r target type listener entries hleg ho]
      rw [ho, Option.getD_some] at h3
      have hlive := Inv_entry_live r hinv target entries ho
      have h4 := hinv.2.2.2 target entries ho
      simp only [List.mem_filter, hmem, true_and, Bool.not_eq_true', Bool.eq_false_iff]
      constructor
      · rintro hany ⟨ht, hl⟩
        apply hany
        have hmem2 : o ∈ r.live.filter (fun o => o.target == target) :=
          List.mem_filter.2 ⟨hmem, by simpa using ht⟩
        rw [h3] at hmem2
        obtain ⟨e, he, heo⟩ := List.mem_map.1 hmem2
        refine List.any_eq_true.2 ⟨e, he, ?_⟩
        have := h4 e he
        simp [this, heo, hl]
      · intro hn hany
        obtain ⟨e, he, hp⟩ := List.any_eq_true.1 hany
        simp only [Bool.and_eq_true, beq_iff_eq] at hp
        have heq := Inv_id_injective r hinv e.observer o (hlive e he).1 hmem hp.2
        apply hn
        refine ⟨?_, ?_⟩
        · rw [← heq]; exact (hlive e he).2
        · rw [← heq, ← h4 e he]; exact hp.1

/-- C11 (the code at the failing input): listener 10 is registered on target 1 for
`DOMNodeInserted` and for `DOMNodeRemoved`; removing it for `DOMNodeInserted` also
disconnects the observer of its `DOMNodeRemoved` registration and deletes the
target's map entry, so a later removal of a child node is reported to no listener. -/
theorem removeEventListener_drops_other_event :
    liveFor (runCalls {} [.add 1 "DOMNodeInserted" 10, .add 1 "DOMNodeRemoved" 10])
        1 "DOMNodeRemoved"
      = [{ id := 1, target := 1, type := "DOMNodeRemoved", listener := 10 }] ∧
    liveFor (runCalls {} [.add 1 "DOMNodeInserted" 10, .add 1 "DOMNodeRemoved" 10,
        .remove 1 "DOMNodeInserted" 10]) 1 "DOMNodeRemoved" = [] ∧
    (runCalls {} [.add 1 "DOMNodeInserted" 10, .add 1 "DOMNodeRemoved" 10,
        .remove 1 "DOMNodeInserted" 10]).observers 1 = none ∧
    deliver (runCalls {} [.add 1 "DOMNodeInserted" 10, .add 1 "DOMNodeRemoved" 10,
        .remove 1 "DOMNodeInserted" 10]) 1
        [{ type := .childList, target := ⟨1, 1⟩, removedNodes := [⟨2, 1⟩] }] = [] := by
  decide

/-- A second listener on the same target is left alone by the removal of the
first: its observer stays connected and its element stays in the map. -/
theorem removeEventListener_keeps_other_listener :
    liveFor (runCalls {} [.add 1 "DOMNodeInserted" 10, .add 1 "DOMNodeInserted" 11,
        .remove 1 "DOMNodeInserted" 10]) 1 "DOMNodeInserted"
      = [{ id := 1, target := 1, type := "DOMNodeInserted", listener := 11 }] ∧
    (runCalls {} [.add 1 "DOMNodeInserted" 10, .add 1 "DOMNodeInserted" 11,
        .remove 1 "DOMNodeInserted" 10]).observers 1
      = some [{ observer := { id := 1, target := 1, type := "DOMNodeInserted",
                              listener := 11 },
                listener := 11 }] := by
  decide

/-- C15 (as stated, refuted): two `addEventListener` calls for the same target and
the same legacy event name, with two listeners or with the same listener twice,
leave two connected observers for that pair. -/
theorem two_registrations_two_observers :
    (liveFor (runCalls {} [.add 1 "DOMNodeInserted" 10, .add 1 "DOMNodeInserted" 11])
        1 "DOMNodeInserted").length = 2 ∧
    (liveFor (runCalls {} [.add 1 "DOMNodeInserted" 10, .add 1 "DOMNodeInserted" 10])
        1 "DOMNodeInserted").length = 2 := by
  decide

theorem runCalls_isNode (calls : List ListenerCall) :
    ∀ r : Registry, (runCalls r calls).isNode = r.isNode := by
  induction calls with
  | nil => intro r; rfl
  | cons call rest ih =>
    intro r
    simp only [runCalls, List.foldl_cons]
    have := ih (stepCall r call)
    simp only [runCalls] at this
    rw [this]
    cases call with
    | add t ty l => exact addEventListener_isNode r t ty l
    | remove t ty l => exact removeEventListener_isNode r t ty l

/-- C15 (amended): in every state reached by any sequence of `addEventListener` and
`removeEventListener` calls, whichever targets are nodes, there is one connected
observer per registration still held in the target's list, not one per pair of
target and event name: the connected observers that serve a pair are exactly the
observers of the elements of the target's list made for that event name, in the same
order, and connected observers have pairwise different identities; and every
`addEventListener` call for a legacy event name on a node returns normally and
constructs and connects a new observer for its pair, also when the pair already has
one. -/
theorem registry_one_observer_per_registration (nodes : Nat → Bool)
    (calls : List ListenerCall) :
    (∀ t type, liveFor (runCalls { isNode := nodes } calls) t type
      = ((((runCalls { isNode := nodes } calls).observers t).getD []).map
          ObserverEntry.observer).filter (fun o => o.type == type)) ∧
    ((runCalls { isNode := nodes } calls).live.map Observer.id).Nodup ∧
    (∀ t type listener, isLegacy type = true → nodes t = true →
      (addEventListener (runCalls { isNode := nodes } calls) t type listener).2 = none ∧
      liveFor (addEventListener (runCalls { isNode := nodes } calls) t type listener).1
          t type
        = liveFor (runCalls { isNode := nodes } calls) t type ++
          [{ id := (runCalls { isNode := nodes } calls).made, target := t, type := type,
             listener := listener }]) := by
  obtain ⟨_, h2, h3, _⟩ := Inv_runCalls calls { isNode := nodes } (Inv_empty nodes)
  refine ⟨?_, h2, ?_⟩
  · intro t type
    rw [← h3 t, List.filter_filter]
    unfold liveFor
    apply List.filter_congr
    intro o _
    exact Bool.and_comm _ _
  · intro t type listener hleg hnode
    have hn : (runCalls { isNode := nodes } calls).isNode t = true := by
      rw [runCalls_isNode]; exact hnode
    rw [addEventListener_legacy _ t type listener hleg hn]
    simp [liveFor, List.filter_append]

/-- C15 witness: after one registration for a pair on a node, a second one adds a
second connected observer. -/
theorem registry_one_observer_per_registration_witness :
    liveFor (addEventListener (runCalls { isNode := fun _ => true }
        [.add 1 "DOMNodeInserted" 10]) 1 "DOMNodeInserted" 11).1 1 "DOMNodeInserted"
      = liveFor (runCalls { isNode := fun _ => true } [.add 1 "DOMNodeInserted" 10])
          1 "DOMNodeInserted" ++
          [{ id := (runCalls { isNode := fun _ => true }
                [.add 1 "DOMNodeInserted" 10]).made,
             target := 1, type := "DOMNodeInserted", listener := 11 }] :=
  ((registry_one_observer_per_registration (fun _ => true)
      [.add 1 "DOMNodeInserted" 10]).2.2 1 "DOMNodeInserted" 11 rfl rfl).2

/-- On a target that is not a node, `addEventListener` for a legacy event name throws
from `observe`: no observer is connected, and a target that had no list keeps the
empty list stored before the call. -/
theorem addEventListener_not_node_example :
    (addEventListener { isNode := fun t => t != 0 } 0 "DOMNodeInserted" 10).2
      = some observeError ∧
    (addEventListener { isNode := fun t => t != 0 } 0 "DOMNodeInserted" 10).1.live = [] ∧
    (addEventListener { isNode := fun t => t != 0 } 0 "DOMNodeInserted" 10).1.observers 0
      = some [] := by
  decide

end NgQuill
